import Mathlib

/-!
Verification of the xraydb-rs numerical core against its specification.

Floating-point (`f64`) values are modelled as real numbers; machine
transcendental functions (`ln`, `exp`) become `Real.log` / `Real.exp`.
Rust slice indexing, which panics when out of bounds, is modelled with
`Option`-returning kernels (`interp_one?`, `elam_spline_one?`); a result of
`none` corresponds to a panic (out-of-bounds access or `usize` underflow).
Total wrappers (`interp_one`, `elam_spline_one`) recover the value with a
junk default, matching the in-bounds behaviour exactly.

`slice::partition_point` is modelled as the length of the longest prefix
satisfying the predicate; for partitioned (in particular sorted) inputs this
is exactly what the Rust binary search returns, and every caller in the
source applies it to a strictly increasing knot array.
-/

namespace Xraydb

/-- Model of `f64::EPSILON` (2⁻⁵²), used by the exact-knot-match test in
`interp_one` (src/xraydb-lib/src/interp.rs). -/
noncomputable def f64_epsilon : ℝ := 1 / 2 ^ 52

/-- Model of `xs.partition_point(|&v| v < x)`: number of leading elements
below `x` (equals Rust's binary-search result on partitioned input). -/
noncomputable def partitionPoint (xs : List ℝ) (x : ℝ) : ℕ :=
  (xs.takeWhile (fun v => decide (v < x))).length

/-- Model of `interp_one` from src/xraydb-lib/src/interp.rs.  Each slice
access `s[i]` is modelled by `List.get?`; `none` marks the panics the Rust
code would reach on an empty `xp` or a too-short `fp`. -/
noncomputable def interp_one? (x : ℝ) (xp fp : List ℝ) : Option ℝ := do
  let x0 ← xp.get? 0
  if x ≤ x0 then
    fp.get? 0
  else
    let xl ← xp.get? (xp.length - 1)
    if x ≥ xl then
      fp.get? (fp.length - 1)
    else
      let idx := partitionPoint xp x
      if idx = 0 then
        fp.get? 0
      else
        let xi ← xp.get? idx
        if |xi - x| < f64_epsilon * |xi| then
          fp.get? idx
        else
          let lo := idx - 1
          let xlo ← xp.get? lo
          let flo ← fp.get? lo
          let fhi ← fp.get? idx
          pure (flo + (x - xlo) / (xi - xlo) * (fhi - flo))

/-- Total wrapper for `interp_one` (the value Rust returns when no panic
occurs). -/
noncomputable def interp_one (x : ℝ) (xp fp : List ℝ) : ℝ :=
  (interp_one? x xp fp).getD 0

/-- Model of `interp` from src/xraydb-lib/src/interp.rs. -/
noncomputable def interp (x xp fp : List ℝ) : List ℝ :=
  x.map (fun xi => interp_one xi xp fp)

/-- Model of `interp_loglog` from src/xraydb-lib/src/interp.rs: transform
everything with `ln`, linearly interpolate, exponentiate.  Note that no
1e-99 floor appears here. -/
noncomputable def interp_loglog (x xp fp : List ℝ) : List ℝ :=
  (interp (x.map Real.log) (xp.map Real.log) (fp.map Real.log)).map Real.exp

/-- Model of `safe_for_log` from src/xraydb-lib/src/chantler.rs: values with
absolute value below 1e-99 are replaced by 1e-99. -/
noncomputable def safe_for_log (values : List ℝ) : List ℝ :=
  values.map (fun v => if |v| < 1e-99 then 1e-99 else v)

/-- The bracket index `hi` of `elam_spline` (src/xraydb-lib/src/spline.rs,
lines 18-22): the three-armed match on `partition_point`.  (The arm for
`pp ≥ len` computes `len - 1` with the truncating `Nat` subtraction; the
underflow panic it causes in Rust on an empty array is detected separately
in `elam_spline_one?`.) -/
noncomputable def elam_hi (xin : List ℝ) (x : ℝ) : ℕ :=
  let pp := partitionPoint xin x
  if xin.length ≤ pp then xin.length - 1
  else if pp = 0 then min 1 (xin.length - 1)
  else pp

/-- Model of the per-point body of `elam_spline`
(src/xraydb-lib/src/spline.rs).  `none` marks the `usize` underflow panics
(`xin.len() - 1` on an empty array, `hi - 1` when `hi = 0`) and any
out-of-bounds access. -/
noncomputable def elam_spline_one? (xin yin yspl : List ℝ) (x : ℝ) : Option ℝ :=
  if xin.length = 0 then
    none
  else
    let hi := elam_hi xin x
    if hi = 0 then
      none
    else do
      let lo := hi - 1
      let xhi ← xin.get? hi
      let xlo ← xin.get? lo
      let yhi ← yin.get? hi
      let ylo ← yin.get? lo
      let shi ← yspl.get? hi
      let slo ← yspl.get? lo
      let diff := xhi - xlo
      let a := (xhi - x) / diff
      let b := (x - xlo) / diff
      pure (a * ylo + b * yhi + diff * diff / 6 * ((a * a - 1) * a * slo + (b * b - 1) * b * shi))

/-- Total wrapper for the per-point Elam spline evaluation. -/
noncomputable def elam_spline_one (xin yin yspl : List ℝ) (x : ℝ) : ℝ :=
  (elam_spline_one? xin yin yspl x).getD 0

/-- Model of `elam_spline` from src/xraydb-lib/src/spline.rs. -/
noncomputable def elam_spline (xin yin yspl xout : List ℝ) : List ℝ :=
  xout.map (fun x => elam_spline_one xin yin yspl x)

/-- Kind of Chantler cross-section (src/xraydb-lib/src/chantler.rs). -/
inductive ChantlerKind where
  | Total
  | Photo
  | Incoherent
deriving DecidableEq

/-- Model of `xraydb_data::ChantlerRecord` (src/xraydb-data/src/lib.rs). -/
structure ChantlerRecord where
  element : String
  sigma_mu : ℝ
  mue_f2 : ℝ
  density : ℝ
  corr_henke : ℝ
  corr_cl35 : ℝ
  corr_nucl : ℝ
  energy : List ℝ
  f1 : List ℝ
  f2 : List ℝ
  mu_photo : List ℝ
  mu_incoh : List ℝ
  mu_total : List ℝ

/-- The numeric rows retained by the generator's data-line loop
(src/xraydb-generate/src/chantler.rs): rows with at least 5 parsed words. -/
def chantlerDataRows (rows : List (List ℝ)) : List (List ℝ) :=
  rows.filter (fun w => 5 ≤ w.length)

/-- Model of the record built by `parse_chantler` for one element
(src/xraydb-generate/src/chantler.rs, lines 77-120).  `rows` holds, for
each non-comment line, the list of whitespace-separated words that parsed
as floats; the header-derived scalars are passed in directly. -/
def parse_chantler_record (elem : String) (sigma_mu mue_f2 density : ℝ)
    (corr_henke corr_cl35 corr_nucl : ℝ) (z : ℝ) (rows : List (List ℝ)) :
    ChantlerRecord where
  element := elem
  sigma_mu := sigma_mu
  mue_f2 := mue_f2
  density := density
  corr_henke := corr_henke
  corr_cl35 := corr_cl35
  corr_nucl := corr_nucl
  energy := (chantlerDataRows rows).map (fun w => 1000 * w.getD 0 0)
  f1 := (chantlerDataRows rows).map (fun w => w.getD 1 0 - z + corr_cl35 + corr_nucl)
  f2 := (chantlerDataRows rows).map (fun w => w.getD 2 0)
  mu_photo := (chantlerDataRows rows).map (fun w => w.getD 3 0)
  mu_incoh := (chantlerDataRows rows).map (fun w => w.getD 4 0)
  mu_total := (chantlerDataRows rows).map (fun w => w.getD 3 0 + w.getD 4 0)

/-- Model of `chantler_energy_bounds` (src/xraydb-lib/src/chantler.rs). -/
noncomputable def chantler_energy_bounds (row : ChantlerRecord) : ℝ × ℝ :=
  let emin := row.energy.headD 0
  (emin, min (row.energy.getLastD emin) 1e6)

/-- Model of `clamp_energies` (src/xraydb-lib/src/chantler.rs);
`f64::clamp(emin, emax)` for `emin ≤ emax`. -/
noncomputable def clamp_energies (energies : List ℝ) (emin emax : ℝ) : List ℝ :=
  energies.map (fun e => max emin (min e emax))

/-- The mu array selected by `mu_chantler`'s `match kind`. -/
def chantler_kind_values (row : ChantlerRecord) (kind : ChantlerKind) : List ℝ :=
  match kind with
  | ChantlerKind.Total => row.mu_total
  | ChantlerKind.Photo => row.mu_photo
  | ChantlerKind.Incoherent => row.mu_incoh

/-- Model of `mu_chantler` (src/xraydb-lib/src/chantler.rs, lines 72-92),
with the element lookup replaced by the record it resolves to. -/
noncomputable def mu_chantler (row : ChantlerRecord) (energies : List ℝ)
    (kind : ChantlerKind) : List ℝ :=
  let b := chantler_energy_bounds row
  let clamped := clamp_energies energies b.1 b.2
  interp_loglog clamped row.energy (safe_for_log (chantler_kind_values row kind))

/-- Model of `f2_chantler` (src/xraydb-lib/src/chantler.rs, lines 58-67). -/
noncomputable def f2_chantler (row : ChantlerRecord) (energies : List ℝ) : List ℝ :=
  let b := chantler_energy_bounds row
  let clamped := clamp_energies energies b.1 b.2
  interp_loglog clamped row.energy (safe_for_log row.f2)

/-- Model of `f1_chantler` (src/xraydb-lib/src/chantler.rs, lines 43-53). -/
noncomputable def f1_chantler (row : ChantlerRecord) (energies : List ℝ) : List ℝ :=
  let b := chantler_energy_bounds row
  interp (clamp_energies energies b.1 b.2) row.energy row.f1

/-- Kind of Elam cross-section (src/xraydb-lib/src/elam.rs). -/
inductive CrossSectionKind where
  | Photo
  | Coherent
  | Incoherent
  | Total
deriving DecidableEq

/-- Model of `xraydb_data::PhotoabsorptionRecord`'s array fields. -/
structure PhotoRow where
  log_energy : List ℝ
  log_photoabsorption : List ℝ
  log_photoabsorption_spline : List ℝ

/-- Model of `xraydb_data::ScatteringRecord`'s array fields. -/
structure ScatterRow where
  log_energy : List ℝ
  log_coherent_scatter : List ℝ
  log_coherent_scatter_spline : List ℝ
  log_incoherent_scatter : List ℝ
  log_incoherent_scatter_spline : List ℝ

/-- Model of `clamp_log_energies` (src/xraydb-lib/src/elam.rs, lines
119-125): clamp each energy to [100 eV, 800 keV] and take `ln`. -/
noncomputable def clamp_log_energies (energies : List ℝ) : List ℝ :=
  energies.map (fun e => Real.log (max 100 (min e 800000)))

/-- Model of `mu_elam` (src/xraydb-lib/src/elam.rs, lines 18-64) together
with its helper `cross_section_elam_with_symbol`, with the element lookups
replaced by the photoabsorption and scattering records they resolve to. -/
noncomputable def mu_elam (prow : PhotoRow) (srow : ScatterRow)
    (energies : List ℝ) (kind : CrossSectionKind) : List ℝ :=
  let log_en := clamp_log_energies energies
  match kind with
  | CrossSectionKind.Total =>
      let photo_log := elam_spline prow.log_energy prow.log_photoabsorption
        prow.log_photoabsorption_spline log_en
      let coh_log := elam_spline srow.log_energy srow.log_coherent_scatter
        srow.log_coherent_scatter_spline log_en
      let incoh_log := elam_spline srow.log_energy srow.log_incoherent_scatter
        srow.log_incoherent_scatter_spline log_en
      List.zipWith (fun pc i => Real.exp pc.1 + Real.exp pc.2 + Real.exp i)
        (List.zipWith Prod.mk photo_log coh_log) incoh_log
  | CrossSectionKind.Photo =>
      (elam_spline prow.log_energy prow.log_photoabsorption
        prow.log_photoabsorption_spline log_en).map Real.exp
  | CrossSectionKind.Coherent =>
      (elam_spline srow.log_energy srow.log_coherent_scatter
        srow.log_coherent_scatter_spline log_en).map Real.exp
  | CrossSectionKind.Incoherent =>
      (elam_spline srow.log_energy srow.log_incoherent_scatter
        srow.log_incoherent_scatter_spline log_en).map Real.exp

/-! ### Chemical formula parsing (src/xraydb-lib/src/chemparser.rs)

Stoichiometric counts are modelled as exact rationals; the decimal strings
accepted by Rust's `f64::from_str` on the lexed slices denote exactly these
rationals. -/

/-- The `ELEMENTS` table from src/xraydb-lib/src/chemparser.rs. -/
def ELEMENTS : List String :=
  ["Ac", "Ag", "Al", "Am", "Ar", "As", "At", "Au", "B", "Ba", "Be", "Bi", "Bk", "Br", "C", "Ca",
   "Cd", "Ce", "Cf", "Cl", "Cm", "Co", "Cr", "Cs", "Cu", "Dy", "Er", "Es", "Eu", "F", "Fe", "Fm",
   "Fr", "Ga", "Gd", "Ge", "H", "He", "Hf", "Hg", "Ho", "I", "In", "Ir", "K", "Kr", "La", "Li",
   "Lr", "Lu", "Md", "Mg", "Mn", "Mo", "N", "Na", "Nb", "Nd", "Ne", "Ni", "No", "Np", "O", "Os",
   "P", "Pa", "Pb", "Pd", "Pm", "Po", "Pr", "Pt", "Pu", "Ra", "Rb", "Re", "Rh", "Rn", "Ru", "S",
   "Sb", "Sc", "Se", "Si", "Sm", "Sn", "Sr", "Ta", "Tb", "Tc", "Te", "Th", "Ti", "Tl", "Tm", "U",
   "Unh", "Unp", "Unq", "Uns", "V", "W", "Xe", "Y", "Yb", "Zn", "Zr"]

/-- Model of `is_element`: `D` is an alias for `H`. -/
def is_element (sym : String) : Bool :=
  sym = "D" || ELEMENTS.contains sym

/-- Model of `resolve_element`. -/
def resolve_element (sym : String) : String :=
  if sym = "D" then "H" else sym

/-- `char::is_ascii_digit`. -/
def asciiDigit (c : Char) : Bool := '0' ≤ c && c ≤ '9'

/-- `char::is_ascii_uppercase`. -/
def asciiUpper (c : Char) : Bool := 'A' ≤ c && c ≤ 'Z'

/-- `char::is_ascii_lowercase`. -/
def asciiLower (c : Char) : Bool := 'a' ≤ c && c ≤ 'z'

/-- Tokens produced by the formula tokenizer. -/
inductive FToken where
  | name (s : String)
  | num (q : ℚ)
  | lparen
  | rparen
  | eos
deriving DecidableEq

/-- Digit run to a natural number. -/
def digitsToNat (ds : List Char) : ℕ :=
  ds.foldl (fun acc c => 10 * acc + (c.toNat - '0'.toNat)) 0

/-- Model of `Tokenizer::read_number`: lex integer part, optional fraction,
optional exponent, then convert as Rust's `f64` parse does.  Returns `none`
exactly when the parse fails (no mantissa digit, or an `e` with no exponent
digits). -/
def read_number (cs : List Char) : Option ℚ × List Char :=
  let ipart := cs.takeWhile asciiDigit
  let r1 := cs.dropWhile asciiDigit
  let fr : Option (List Char) × List Char :=
    match r1 with
    | '.' :: rest => (some (rest.takeWhile asciiDigit), rest.dropWhile asciiDigit)
    | _ => (none, r1)
  let fpart := fr.1
  let r2 := fr.2
  let ex : Option (Bool × List Char) × List Char :=
    match r2 with
    | 'e' :: rest =>
        match rest with
        | '+' :: t => (some (false, t.takeWhile asciiDigit), t.dropWhile asciiDigit)
        | '-' :: t => (some (true, t.takeWhile asciiDigit), t.dropWhile asciiDigit)
        | t => (some (false, t.takeWhile asciiDigit), t.dropWhile asciiDigit)
    | 'E' :: rest =>
        match rest with
        | '+' :: t => (some (false, t.takeWhile asciiDigit), t.dropWhile asciiDigit)
        | '-' :: t => (some (true, t.takeWhile asciiDigit), t.dropWhile asciiDigit)
        | t => (some (false, t.takeWhile asciiDigit), t.dropWhile asciiDigit)
    | _ => (none, r2)
  let rest := ex.2
  let mantissaDigits := ipart.length + (fpart.getD []).length
  let expOk : Bool :=
    match ex.1 with
    | none => true
    | some (_, ds) => !ds.isEmpty
  if mantissaDigits = 0 || !expOk then
    (none, rest)
  else
    let fl := (fpart.getD []).length
    let mInt : ℤ := (digitsToNat ipart : ℤ) * Int.pow 10 fl + (digitsToNat (fpart.getD []) : ℤ)
    let value : ℚ :=
      match ex.1 with
      | none => mkRat mInt (Nat.pow 10 fl)
      | some (neg, ds) =>
          let e := digitsToNat ds
          if neg then mkRat mInt (Nat.pow 10 fl * Nat.pow 10 e)
          else mkRat (mInt * Int.pow 10 e) (Nat.pow 10 fl)
    (some value, rest)

/-- Model of `Tokenizer::next_token`; `none` is the tokenizer error
(unrecognized character or invalid number). -/
def next_token (cs : List Char) : Option (FToken × List Char) :=
  match cs with
  | [] => some (FToken.eos, [])
  | c :: rest =>
      if c = '(' then some (FToken.lparen, rest)
      else if c = ')' then some (FToken.rparen, rest)
      else if asciiDigit c || c = '.' then
        match read_number (c :: rest) with
        | (some q, r) => some (FToken.num q, r)
        | (none, _) => none
      else if asciiUpper c then
        some (FToken.name (String.mk (c :: rest.takeWhile asciiLower)),
          rest.dropWhile asciiLower)
      else none

/-- Model of `FormulaNode`. -/
inductive FormulaNode where
  | element (s : String) : FormulaNode
  | sequence (items : List (FormulaNode × ℚ)) : FormulaNode

/-- Add `w` to the entry for `s`, inserting it if absent (the
`*result.entry(sym).or_insert(0.0) += weight` step). -/
def insertAdd (m : List (String × ℚ)) (s : String) (w : ℚ) : List (String × ℚ) :=
  match m with
  | [] => [(s, w)]
  | (k, v) :: rest => if k = s then (k, v + w) :: rest else (k, v) :: insertAdd rest s w

/-- Model of `add_to_result`: distribute `m·count` recursively through
nested groups.  The `fuel` argument only serves structural termination
(nested-inductive recursion would otherwise be compiled by well-founded
recursion); `chemparse` passes more fuel than the number of nodes the parse
can produce, so it never runs out. -/
def add_to_result (fuel : ℕ) : FormulaNode → ℚ → List (String × ℚ) → List (String × ℚ) :=
  match fuel with
  | 0 => fun _ _ m => m
  | fuel + 1 => fun node w m =>
      match node with
      | FormulaNode.element s => insertAdd m s w
      | FormulaNode.sequence [] => m
      | FormulaNode.sequence ((n, cnt) :: rest) =>
          add_to_result fuel (FormulaNode.sequence rest) w (add_to_result fuel n (w * cnt) m)

/-- Consume an optional count token (`1.0` when absent) and pull the next
token, as both item branches of `parse_sequence` do. -/
def read_count (tok : FToken) (cs : List Char) : Option (ℚ × FToken × List Char) :=
  match tok with
  | FToken.num n => (next_token cs).map (fun tr => (n, tr.1, tr.2))
  | t => some ((1 : ℚ), t, cs)

/-- Model of `parse_sequence` (fuel-based recursion; the fuel passed by
`chemparse` always suffices because every recursive call follows the
consumption of at least one character). -/
def parse_sequence : ℕ → List Char → FToken → Option (List (FormulaNode × ℚ) × FToken × List Char)
  | 0, _, _ => none
  | fuel + 1, cs, current =>
      match current with
      | FToken.lparen => do
          let (tok, cs1) ← next_token cs
          let (inner, next, cs2) ← parse_sequence fuel cs1 tok
          if next = FToken.rparen then do
            let (tok2, cs3) ← next_token cs2
            let (cnt, tok3, cs4) ← read_count tok2 cs3
            let (items, final, cs5) ← parse_sequence fuel cs4 tok3
            pure ((FormulaNode.sequence inner, cnt) :: items, final, cs5)
          else none
      | FToken.name s =>
          if is_element s then do
            let (tok, cs1) ← next_token cs
            let (cnt, tok2, cs2) ← read_count tok cs1
            let (items, final, cs3) ← parse_sequence fuel cs2 tok2
            pure ((FormulaNode.element (resolve_element s), cnt) :: items, final, cs3)
          else none
      | t => some ([], t, cs)

/-- Model of `preprocess_formula`: strip spaces, then insert `0` before any
`.` not preceded by a digit. -/
def preprocess_formula (cs : List Char) : List Char :=
  go none (cs.filter (fun c => c ≠ ' '))
where
  go : Option Char → List Char → List Char
    | _, [] => []
    | prev, c :: rest =>
        if c = '.' && (match prev with | some p => !asciiDigit p | none => true) then
          '0' :: c :: go (some c) rest
        else
          c :: go (some c) rest

/-- Model of `chemparse`: parse a formula into a symbol → count map
(association list standing for the `HashMap`); `none` is `InvalidFormula`. -/
def chemparse (formula : String) : Option (List (String × ℚ)) :=
  let cs := preprocess_formula formula.toList
  do
    let (tok, cs1) ← next_token cs
    let (items, final, _) ← parse_sequence (cs.length + 1) cs1 tok
    if final = FToken.eos then
      pure (add_to_result (cs.length + 4) (FormulaNode.sequence items) 1 [])
    else none

/-! ### Physical constants (src/xraydb-lib/src/constants.rs) -/

/-- Planck's constant times speed of light (eV·Å). -/
noncomputable def PLANCK_HC_ANGSTROM : ℝ := 12398.4193

/-- Classical electron radius (Å). -/
noncomputable def R_ELECTRON_ANG : ℝ := 2.8179403262e-5

/-- Elementary charge (C). -/
noncomputable def ELEMENTARY_CHARGE : ℝ := 1.602176634e-19

/-! ### Ion chamber (src/xraydb-lib/src/ionchamber.rs)

The database-dependent collaborators are passed as oracles:
`matmu name energy kind` stands for `material_mu_named(name, [energy], kind,
None)` returning its single element (`none` = any error it raises),
`ionpot` for `ionization_potential`, and `electron_mean` for
`compton_energies(energy).electron_mean`. -/

/-- Errors of `ionchamber_fluxes`: the explicit `DataError` for an empty gas
mixture, or any error propagated from a collaborator. -/
inductive IonErr where
  | dataError
  | other
deriving DecidableEq

/-- Model of the `IonChamberFluxes` result struct. -/
structure IonChamberFluxes where
  incident : ℝ
  transmitted : ℝ
  photo : ℝ
  incoherent : ℝ
  coherent : ℝ

/-- The accumulator of the per-gas loop. -/
structure GasSums where
  mu_photo : ℝ
  mu_incoh : ℝ
  mu_total : ℝ
  mu_coh : ℝ
  ion_pot : ℝ

/-- Gas-name aliasing: `"N2" → "nitrogen"`, `"O2" → "oxygen"`. -/
def gas_lookup_name (g : String) : String :=
  if g = "N2" then "nitrogen" else if g = "O2" then "oxygen" else g

/-- One iteration of the per-gas loop of `ionchamber_fluxes` (lines
96-127): weighted contributions of the four mu kinds and the ionization
potential (default 32.0 eV). -/
noncomputable def ionchamber_gas_step
    (matmu : String → ℝ → CrossSectionKind → Option ℝ)
    (ionpot : String → Option ℝ) (gas_total energy : ℝ)
    (acc : GasSums) (gf : String × ℝ) : Option GasSums := do
  let weight := gf.2 / gas_total
  let lookup_name := gas_lookup_name gf.1
  let ip := ((ionpot gf.1).orElse (fun _ => ionpot lookup_name)).getD 32
  let photo ← matmu lookup_name energy CrossSectionKind.Photo
  let total ← matmu lookup_name energy CrossSectionKind.Total
  let incoh ← matmu lookup_name energy CrossSectionKind.Incoherent
  let coh ← matmu lookup_name energy CrossSectionKind.Coherent
  pure (GasSums.mk (acc.mu_photo + photo * weight) (acc.mu_incoh + incoh * weight)
    (acc.mu_total + total * weight) (acc.mu_coh + coh * weight)
    (acc.ion_pot + ip * weight))

/-- The per-gas loop of `ionchamber_fluxes`. -/
noncomputable def ionchamber_gas_sums
    (matmu : String → ℝ → CrossSectionKind → Option ℝ)
    (ionpot : String → Option ℝ)
    (gases : List (String × ℝ)) (gas_total energy : ℝ) : Option GasSums :=
  gases.foldlM (ionchamber_gas_step matmu ionpot gas_total energy)
    (GasSums.mk 0 0 0 0 0)

/-- Model of `ionchamber_fluxes` (src/xraydb-lib/src/ionchamber.rs, lines
60-162). -/
noncomputable def ionchamber_fluxes
    (matmu : String → ℝ → CrossSectionKind → Option ℝ)
    (ionpot : String → Option ℝ) (electron_mean : ℝ → ℝ)
    (gases : List (String × ℝ)) (volts length_cm energy sensitivity : ℝ)
    (with_compton both_carriers : Bool) : Except IonErr IonChamberFluxes :=
  let ncarriers : ℝ := if both_carriers then 2 else 1
  let gas_total := (gases.map Prod.snd).sum
  if gas_total ≤ 0 then Except.error IonErr.dataError
  else
    let energy_compton := if with_compton then electron_mean energy else 0
    match ionchamber_gas_sums matmu ionpot gases gas_total energy with
    | none => Except.error IonErr.other
    | some s =>
        let atten_total := 1 - Real.exp (-length_cm * s.mu_total)
        let atten_photo := if 0 < s.mu_total then atten_total * s.mu_photo / s.mu_total else 0
        let atten_incoh := if 0 < s.mu_total then atten_total * s.mu_incoh / s.mu_total else 0
        let atten_coh := if 0 < s.mu_total then atten_total * s.mu_coh / s.mu_total else 0
        let absorbed_energy := ncarriers * (energy * atten_photo + energy_compton * atten_incoh)
        let flux_in := if 0 < absorbed_energy then
            volts * sensitivity * s.ion_pot / (ELEMENTARY_CHARGE * absorbed_energy)
          else 0
        Except.ok (IonChamberFluxes.mk flux_in (flux_in * (1 - atten_total))
          (flux_in * atten_photo) (flux_in * atten_incoh) (flux_in * atten_coh))

/-! ### X-ray transitions (src/xraydb-lib/src/transitions.rs)

The numeric field type is generic over a linear order: `xray_lines` only
compares edge energies, so any linear order models `f64` faithfully here. -/

/-- Model of `xraydb_data::XrayLevelRecord`. -/
structure XrayLevelRec (α : Type) where
  element : String
  iupac_symbol : String
  absorption_edge : α
  fluorescence_yield : α
  jump_ratio : α
deriving DecidableEq

/-- Model of `xraydb_data::XrayTransitionRecord`. -/
structure XrayTransitionRec (α : Type) where
  element : String
  iupac_symbol : String
  siegbahn_symbol : String
  initial_level : String
  final_level : String
  emission_energy : α
  intensity : α
deriving DecidableEq

/-- Model of the `XrayLine` value struct. -/
structure XrayLine (α : Type) where
  energy : α
  intensity : α
  initial_level : String
  final_level : String
deriving DecidableEq

/-- The filter applied by `xray_lines` to each transition (lines 78-99):
element match, optional initial-level match, and the excitation-energy test
against the first matching `xray_level` row (a transition with no matching
row passes). -/
def xray_lines_keep {α : Type} [LinearOrder α] (levels : List (XrayLevelRec α))
    (sym : String) (initial_level : Option String) (excitation_energy : Option α)
    (t : XrayTransitionRec α) : Bool :=
  t.element = sym &&
  (match initial_level with
   | none => true
   | some lv => t.initial_level = lv) &&
  (match excitation_energy with
   | none => true
   | some max_energy =>
       match levels.find? (fun l =>
           l.element = sym && l.iupac_symbol = t.initial_level) with
       | some lvl => !(max_energy < lvl.absorption_edge)
       | none => true)

/-- `HashMap::insert` on the association-list model: replace the value of an
existing key, else append. -/
def insertLine {α : Type} (m : List (String × XrayLine α)) (key : String)
    (v : XrayLine α) : List (String × XrayLine α) :=
  match m with
  | [] => [(key, v)]
  | (k, w) :: rest => if k = key then (key, v) :: rest else (k, w) :: insertLine rest key v

/-- Model of `xray_lines` (src/xraydb-lib/src/transitions.rs, lines 69-112),
with the element-symbol resolution replaced by the resolved symbol and the
database rows passed in directly. -/
def xray_lines {α : Type} [LinearOrder α] (levels : List (XrayLevelRec α))
    (transitions : List (XrayTransitionRec α)) (sym : String)
    (initial_level : Option String) (excitation_energy : Option α) :
    List (String × XrayLine α) :=
  transitions.foldl (fun m t =>
    if xray_lines_keep levels sym initial_level excitation_energy t then
      insertLine m t.siegbahn_symbol
        (XrayLine.mk t.emission_energy t.intensity t.initial_level t.final_level)
    else m) []

/-! ### Optics (src/xraydb-lib/src/optics.rs)

`num_complex::Complex64::sqrt` is the principal square root, modelled as
`exp (log z / 2)` with `csqrt 0 = 0`; `Complex64::exp` is `Complex.exp`.
The database-dependent `xray_delta_beta` is passed as an oracle
`xdb formula density energy = (delta, beta, attenuation_length)`. -/

/-- Polarization state (src/xraydb-lib/src/optics.rs). -/
inductive Polarization where
  | S
  | P
  | Unpolarized
deriving DecidableEq

/-- Principal complex square root (`num_complex::Complex64::sqrt`). -/
noncomputable def csqrt (z : ℂ) : ℂ :=
  if z = 0 then 0 else Complex.exp (Complex.log z / 2)

/-- The complex refractive index formed by `mirror_reflectivity` (line 277):
`n = 1 − δ − iβ`. -/
def mirror_index (delta beta : ℝ) : ℂ := ⟨1 - delta, -beta⟩

/-- The complex refractive index formed per layer by
`multilayer_reflectivity` (line 354): `n = 1 − δ + iβ`. -/
def parratt_index (delta beta : ℝ) : ℂ := ⟨1 - delta, beta⟩

/-- Model of `mirror_reflectivity` (src/xraydb-lib/src/optics.rs, lines
267-302). -/
noncomputable def mirror_reflectivity (xdb : String → ℝ → ℝ → Option (ℝ × ℝ × ℝ))
    (formula : String) (theta : List ℝ) (energy density roughness : ℝ)
    (polarization : Polarization) : Option (List ℝ) := do
  let db ← xdb formula density energy
  let n := mirror_index db.1 db.2.1
  let qf := 2 * Real.pi * energy / PLANCK_HC_ANGSTROM
  pure (theta.map (fun th =>
    let kiz : ℂ := ((qf * Real.sin th : ℝ) : ℂ)
    let ktz0 : ℂ := csqrt (n * n - ((Real.cos th * Real.cos th : ℝ) : ℂ)) * ((qf : ℝ) : ℂ)
    let ktz := if polarization = Polarization.P then ktz0 / n else ktz0
    let r0 := (kiz - ktz) / (kiz + ktz)
    let r := if 1e-12 < roughness then
        r0 * Complex.exp (((-2 * roughness * roughness : ℝ) : ℂ) * kiz * ktz)
      else r0
    (r * (starRingEnd ℂ) r).re))

/-- The body of the Parratt recursion for one angle, shared by
`multilayer_reflectivity` and its sign-convention comparison variant.
`n_all`, `t_all` and `n_sub` are the (already replicated) layer indices,
thicknesses and the substrate index. -/
noncomputable def parratt_theta (polarization : Polarization) (k0 : ℝ)
    (n_all : List ℂ) (t_all : List ℝ) (n_sub : ℂ)
    (substrate_rough surface_rough : ℝ) (th : ℝ) : Option ℝ := do
  let cos2 : ℂ := ((Real.cos th * Real.cos th : ℝ) : ℂ)
  let kiz : ℂ := ((k0 * Real.sin th : ℝ) : ℂ)
  let kz := n_all.map (fun ni => csqrt (ni * ni - cos2) * ((k0 : ℝ) : ℂ))
  let kz_sub := csqrt (n_sub * n_sub - cos2) * ((k0 : ℝ) : ℂ)
  if t_all.length = 0 then none
  else do
    let last := t_all.length - 1
    let r0 ← match polarization with
      | Polarization.S => some ((kz.getD last 0 - kz_sub) / (kz.getD last 0 + kz_sub))
      | Polarization.P =>
          let a := kz.getD last 0 / n_all.getD last 0 * n_sub
          let b := kz_sub / n_sub * n_all.getD last 0
          some ((a - b) / (a + b))
      | Polarization.Unpolarized => none
    let r1 := if 1e-12 ≤ substrate_rough then
        r0 * Complex.exp (((-2 * substrate_rough * substrate_rough : ℝ) : ℂ)
          * kz.getD last 0 * kz_sub)
      else r0
    let r2 := ((List.range last).reverse).foldl (fun r i =>
        let fresnel := match polarization with
          | Polarization.S =>
              (kz.getD i 0 - kz.getD (i + 1) 0) / (kz.getD i 0 + kz.getD (i + 1) 0)
          | _ =>
              let a := kz.getD i 0 / n_all.getD i 0 * n_all.getD (i + 1) 0
              let b := kz.getD (i + 1) 0 / n_all.getD (i + 1) 0 * n_all.getD i 0
              (a - b) / (a + b)
        let p2 := Complex.exp ((⟨0, 2⟩ : ℂ) * ((t_all.getD (i + 1) 0 : ℝ) : ℂ)
          * kz.getD (i + 1) 0)
        (fresnel + r * p2) / (1 + fresnel * r * p2)) r1
    let fresnel_surf := match polarization with
      | Polarization.S => (kiz - kz.getD 0 0) / (kiz + kz.getD 0 0)
      | _ => (kiz - kz.getD 0 0 / n_all.getD 0 0) / (kiz + kz.getD 0 0 / n_all.getD 0 0)
    let p2s := Complex.exp ((⟨0, 2⟩ : ℂ) * ((t_all.getD 0 0 : ℝ) : ℂ) * kz.getD 0 0)
    let r3 := (fresnel_surf + r2 * p2s) / (1 + fresnel_surf * r2 * p2s)
    let r4 := if 1e-12 ≤ surface_rough then
        r3 * Complex.exp (((-2 * surface_rough * surface_rough : ℝ) : ℂ) * kiz * kz.getD 0 0)
      else r3
    pure ((r4 * (starRingEnd ℂ) r4).re)

/-- Replicate a list `n` times (the `for _ in 0..n_periods` extension loop). -/
def replicateList {α : Type} (n : ℕ) (l : List α) : List α :=
  (List.range n).foldl (fun acc _ => acc ++ l) []

/-- Model of `multilayer_reflectivity` (src/xraydb-lib/src/optics.rs, lines
318-446).  `none` stands for any returned error or panic. -/
noncomputable def multilayer_reflectivity (xdb : String → ℝ → ℝ → Option (ℝ × ℝ × ℝ))
    (stackup : List String) (thickness : List ℝ) (substrate : String)
    (theta : List ℝ) (energy : ℝ) (n_periods : ℕ) (density : List ℝ)
    (substrate_density substrate_rough surface_rough : ℝ)
    (polarization : Polarization) : Option (List ℝ) := do
  if stackup.length ≠ thickness.length then none
  else if stackup.length ≠ density.length then none
  else do
    let k0 := 2 * Real.pi * energy / PLANCK_HC_ANGSTROM
    let n_vals ← (stackup.zip density).mapM (fun fd => do
      let db ← xdb fd.1 fd.2 energy
      pure (parratt_index db.1 db.2.1))
    let t_all := replicateList n_periods thickness
    let n_all := replicateList n_periods n_vals
    let db_sub ← xdb substrate substrate_density energy
    let n_sub := parratt_index db_sub.1 db_sub.2.1
    theta.mapM (parratt_theta polarization k0 n_all t_all n_sub
      substrate_rough surface_rough)

/-- Comparison variant of `multilayer_reflectivity` that forms every index
with the mirror routine's convention `n = 1 − δ − iβ` instead of the Parratt
convention `n = 1 − δ + iβ`; it exists only to show that the sign convention
is observable in the routine's output. -/
noncomputable def multilayer_reflectivity_mirror_sign
    (xdb : String → ℝ → ℝ → Option (ℝ × ℝ × ℝ))
    (stackup : List String) (thickness : List ℝ) (substrate : String)
    (theta : List ℝ) (energy : ℝ) (n_periods : ℕ) (density : List ℝ)
    (substrate_density substrate_rough surface_rough : ℝ)
    (polarization : Polarization) : Option (List ℝ) := do
  if stackup.length ≠ thickness.length then none
  else if stackup.length ≠ density.length then none
  else do
    let k0 := 2 * Real.pi * energy / PLANCK_HC_ANGSTROM
    let n_vals ← (stackup.zip density).mapM (fun fd => do
      let db ← xdb fd.1 fd.2 energy
      pure (mirror_index db.1 db.2.1))
    let t_all := replicateList n_periods thickness
    let n_all := replicateList n_periods n_vals
    let db_sub ← xdb substrate substrate_density energy
    let n_sub := mirror_index db_sub.1 db_sub.2.1
    theta.mapM (parratt_theta polarization k0 n_all t_all n_sub
      substrate_rough surface_rough)

/-- Errors of `darwin_width`: the explicit `DataError`s, or an error
propagated from the Chantler / f0 collaborators. -/
inductive OpticsErr where
  | dataError
  | other
deriving DecidableEq

/-- Model of the `DarwinWidth` result struct. -/
structure DarwinWidth where
  theta : ℝ
  theta_offset : ℝ
  theta_width : ℝ
  theta_fwhm : ℝ
  rocking_theta_fwhm : ℝ
  energy_width : ℝ
  energy_fwhm : ℝ
  rocking_energy_fwhm : ℝ
  zeta : List ℝ
  dtheta : List ℝ
  denergy : List ℝ
  intensity : List ℝ
  rocking_curve : List ℝ

/-- Model of `convolve_same` (src/xraydb-lib/src/optics.rs, lines 58-74):
`full[n] = Σ_{i+j=n} a[i]·b[j]`, then the centered window of length
`a.length`. -/
noncomputable def convolve_same (a b : List ℝ) : List ℝ :=
  let na := a.length
  let nb := b.length
  let full_len := na + nb - 1
  let full := (List.range full_len).map (fun n =>
    ((List.range na).map (fun i =>
      if i ≤ n ∧ n - i < nb then a.getD i 0 * b.getD (n - i) 0 else 0)).sum)
  let start := (full_len - na) / 2
  (full.drop start).take na

/-- ASCII lowercasing of one character (Rust's `str::to_lowercase`
restricted to the ASCII crystal names it is applied to). -/
def ascii_char_lower (c : Char) : Char :=
  if 'A' ≤ c ∧ c ≤ 'Z' then Char.ofNat (c.toNat + 32) else c

/-- ASCII lowercasing of a string. -/
def lowercase_ascii (s : String) : String :=
  String.mk (s.toList.map ascii_char_lower)

/-- The built-in lattice constants of `darwin_width` (Å), selected on the
lowercased crystal name; `none` is the unsupported-crystal `DataError`. -/
noncomputable def darwin_lattice (crystal : String) : Option ℝ :=
  let lc := lowercase_ascii crystal
  if lc = "si" then some 5.4309
  else if lc = "ge" then some 5.6578
  else if lc = "c" ∨ lc = "diamond" then some 3.567
  else none

/-- The structure-factor parity test of `darwin_width` (lines 106-114):
`8` when all indices are even and their sum is divisible by 4, `4·√2` when
all are odd, otherwise the `DataError`. -/
noncomputable def darwin_eqr (h k l : ℤ) : Option ℝ :=
  if (h + k + l) % 4 = 0 ∧ h % 2 = 0 ∧ k % 2 = 0 ∧ l % 2 = 0 then some 8
  else if h % 2 ≠ 0 ∧ k % 2 ≠ 0 ∧ l % 2 ≠ 0 then some (4 * Real.sqrt 2)
  else none

/-- Model of `darwin_width` (src/xraydb-lib/src/optics.rs, lines 91-256).
`f1q`/`f2q` stand for `f1_chantler(crystal, [energy])[0]` and
`f2_chantler(crystal, [energy])[0]`, and `f0q crystal q` for
`f0(crystal, [q])[0]`; `none` from an oracle is a propagated error. -/
noncomputable def darwin_width (f1q f2q : String → ℝ → Option ℝ)
    (f0q : String → ℝ → Option ℝ) (energy : ℝ) (crystal : String)
    (hkl : ℤ × ℤ × ℤ) (a_opt : Option ℝ) (polarization : Polarization)
    (ignore_f1 ignore_f2 : Bool) (m : ℤ) : Except OpticsErr (Option DarwinWidth) :=
  match darwin_eqr hkl.1 hkl.2.1 hkl.2.2 with
  | none => Except.error OpticsErr.dataError
  | some eqr =>
    match darwin_lattice crystal with
    | none => Except.error OpticsErr.dataError
    | some lattice =>
      let h := hkl.1
      let k := hkl.2.1
      let l := hkl.2.2
      let a := a_opt.getD lattice
      let dspace := a / Real.sqrt ((h * h + k * k + l * l : ℤ) : ℝ)
      let lambd := PLANCK_HC_ANGSTROM / energy
      if 2 * dspace < lambd then Except.ok none
      else
        let theta := Real.arcsin (lambd / (2 * dspace))
        let q := 0.5 / dspace
        match (if ignore_f1 then some 0 else f1q crystal energy),
            (if ignore_f2 then some 0 else f2q crystal energy) with
        | none, _ => Except.error OpticsErr.other
        | _, none => Except.error OpticsErr.other
        | some f1_val, some f2_val =>
          let mf := (m : ℝ)
          let gscale := 2 * dspace * dspace * R_ELECTRON_ANG / (mf * a ^ 3)
          let eqr := match polarization with
            | Polarization.Unpolarized => eqr * (1 + |Real.cos (2 * theta)|) / 2
            | Polarization.P => eqr * |Real.cos (2 * theta)|
            | Polarization.S => eqr
          match f0q crystal 0, f0q crystal q with
          | none, _ => Except.error OpticsErr.other
          | _, none => Except.error OpticsErr.other
          | some f0_0, some f0_q =>
            let f_anom : ℂ := ⟨f1_val, -f2_val⟩
            let g0 := ((8 * gscale : ℝ) : ℂ) * (((f0_0 : ℝ) : ℂ) + f_anom)
            let g := ((eqr * gscale : ℝ) : ℂ) * (((f0_q : ℝ) : ℂ) + f_anom)
            let total := Complex.abs ((2 : ℂ) * g / ((mf * Real.pi : ℝ) : ℂ))
            let fwhm := total * 3 / (2 * Real.sqrt 2)
            let zeta_offset := g0.re / Real.pi
            let theta_offset := Real.tan theta * zeta_offset
            let zeta_step := 0.01 * total
            if zeta_step ≤ 0 then Except.ok none
            else
              let zeta_start := -2.5 * zeta_offset
              let zeta_end := 4.5 * zeta_offset
              let n_points := (⌈(zeta_end - zeta_start) / zeta_step⌉).toNat
              let zeta := (List.range n_points).map
                (fun i => zeta_start + (i : ℝ) * zeta_step)
              let intensity := zeta.map (fun z =>
                let xc := (((mf * Real.pi * z : ℝ) : ℂ) - g0) / g
                let r := if 1 < xc.re then xc - csqrt (xc * xc - 1)
                  else if xc.re < -1 then xc + csqrt (xc * xc - 1)
                  else xc - Complex.I * csqrt (1 - xc * xc)
                (r * (starRingEnd ℂ) r).re)
              let denergy := zeta.map (fun z => -z * energy)
              let dtheta := zeta.map (fun z => z * Real.tan theta)
              let intensity_sum := intensity.sum
              let rocking_curve := if 0 < intensity_sum then
                  (convolve_same intensity intensity).map (fun v => v / intensity_sum)
                else List.replicate intensity.length 0
              let big := match rocking_curve.maximum with
                | none => ([] : List ℕ)
                | some mx => (List.range rocking_curve.length).filter
                    (fun i => decide ((mx : ℝ) / 2 ≤ rocking_curve.getD i 0))
              let fwhms := if 2 ≤ big.length then
                  (|denergy.getD (big.getLastD 0) 0 - denergy.getD (big.headD 0) 0|,
                   |dtheta.getD (big.getLastD 0) 0 - dtheta.getD (big.headD 0) 0|)
                else ((0 : ℝ), (0 : ℝ))
              Except.ok (some (DarwinWidth.mk theta theta_offset
                (total * Real.tan theta) (fwhm * Real.tan theta) fwhms.2
                (total * energy) (fwhm * energy) fwhms.1
                zeta dtheta denergy intensity rocking_curve))

/-! ### Helper lemmas -/

lemma zipWith_map_same {α β γ δ : Type} (f : β → γ → δ) (g : α → β) (h : α → γ)
    (l : List α) :
    List.zipWith f (l.map g) (l.map h) = l.map (fun x => f (g x) (h x)) := by
  induction l with
  | nil => rfl
  | cons a t ih => simp [ih]

lemma map_getD_zero {α : Type} (f : α → ℝ) (l : List α) (i : ℕ) :
    (l.map f).getD i 0 = ((l.get? i).map f).getD 0 := by
  rw [List.getD_eq_get?, List.get?_map]

lemma length_takeWhile_le {α : Type} (p : α → Bool) (l : List α) :
    (l.takeWhile p).length ≤ l.length := by
  induction l with
  | nil => simp
  | cons a t ih =>
      by_cases h : p a
      · simpa [List.takeWhile_cons_of_pos h] using ih
      · simp [List.takeWhile_cons_of_neg h]

lemma takeWhile_full_mem {α : Type} (p : α → Bool) (l : List α)
    (h : (l.takeWhile p).length = l.length) : ∀ a ∈ l, p a = true := by
  induction l with
  | nil => simp
  | cons a t ih =>
      by_cases hp : p a
      · intro b hb
        rcases List.mem_cons.1 hb with rfl | hb
        · exact hp
        · refine ih ?_ b hb
          simpa [List.takeWhile_cons_of_pos hp] using h
      · exfalso
        simp [List.takeWhile_cons_of_neg hp] at h

/-! ### Claim theorems -/

/-- Claim C1: every Chantler record built by the generator stores
`mu_total = mu_photo + mu_incoh` element-wise (the coherent contribution and
the upstream literal total column are omitted), and consequently
`mu_chantler` with kind `Total` log-log interpolates against
`mu_photo + mu_incoh`. -/
theorem chantler_mu_total_is_photo_plus_incoh (elem : String)
    (sm mf d ch ccl cn z : ℝ) (rows : List (List ℝ)) :
    (parse_chantler_record elem sm mf d ch ccl cn z rows).mu_total =
      List.zipWith (· + ·) (parse_chantler_record elem sm mf d ch ccl cn z rows).mu_photo
        (parse_chantler_record elem sm mf d ch ccl cn z rows).mu_incoh ∧
    ∀ energies : List ℝ,
      mu_chantler (parse_chantler_record elem sm mf d ch ccl cn z rows) energies
          ChantlerKind.Total =
        interp_loglog
          (clamp_energies energies
            (chantler_energy_bounds (parse_chantler_record elem sm mf d ch ccl cn z rows)).1
            (chantler_energy_bounds (parse_chantler_record elem sm mf d ch ccl cn z rows)).2)
          (parse_chantler_record elem sm mf d ch ccl cn z rows).energy
          (safe_for_log (List.zipWith (· + ·)
            (parse_chantler_record elem sm mf d ch ccl cn z rows).mu_photo
            (parse_chantler_record elem sm mf d ch ccl cn z rows).mu_incoh)) := by
  have key : (parse_chantler_record elem sm mf d ch ccl cn z rows).mu_total =
      List.zipWith (· + ·) (parse_chantler_record elem sm mf d ch ccl cn z rows).mu_photo
        (parse_chantler_record elem sm mf d ch ccl cn z rows).mu_incoh := by
    simp only [parse_chantler_record, zipWith_map_same]
  refine ⟨key, fun energies => ?_⟩
  simp only [mu_chantler, chantler_kind_values]
  rw [key]

/-- Claim C5: `mu_elam` with kind `Total` is, at every index, exactly the sum
of the `Photo`, `Coherent` and `Incoherent` results at the same energy; each
summand is an exponential, hence positive, so the `Photo` result is bounded
by the `Total` result index-wise; and energies are clamped to
[100 eV, 800 keV] first, so out-of-range energies behave exactly like their
clamped values. -/
theorem mu_elam_total_sum_and_clamp (prow : PhotoRow) (srow : ScatterRow)
    (es : List ℝ) :
    (∀ i : ℕ,
      (mu_elam prow srow es CrossSectionKind.Total).getD i 0 =
        (mu_elam prow srow es CrossSectionKind.Photo).getD i 0 +
        (mu_elam prow srow es CrossSectionKind.Coherent).getD i 0 +
        (mu_elam prow srow es CrossSectionKind.Incoherent).getD i 0) ∧
    (∀ i : ℕ,
      (mu_elam prow srow es CrossSectionKind.Photo).getD i 0 ≤
        (mu_elam prow srow es CrossSectionKind.Total).getD i 0) ∧
    (∀ kind : CrossSectionKind,
      mu_elam prow srow es kind =
        mu_elam prow srow (es.map (fun e => max 100 (min e 800000))) kind) := by
  have htotal : mu_elam prow srow es CrossSectionKind.Total =
      es.map (fun e =>
        Real.exp (elam_spline_one prow.log_energy prow.log_photoabsorption
          prow.log_photoabsorption_spline (Real.log (max 100 (min e 800000)))) +
        Real.exp (elam_spline_one srow.log_energy srow.log_coherent_scatter
          srow.log_coherent_scatter_spline (Real.log (max 100 (min e 800000)))) +
        Real.exp (elam_spline_one srow.log_energy srow.log_incoherent_scatter
          srow.log_incoherent_scatter_spline (Real.log (max 100 (min e 800000))))) := by
    simp only [mu_elam, clamp_log_energies, elam_spline, List.map_map]
    rw [zipWith_map_same, zipWith_map_same]
    simp [Function.comp]
  have hsum : ∀ i : ℕ,
      (mu_elam prow srow es CrossSectionKind.Total).getD i 0 =
        (mu_elam prow srow es CrossSectionKind.Photo).getD i 0 +
        (mu_elam prow srow es CrossSectionKind.Coherent).getD i 0 +
        (mu_elam prow srow es CrossSectionKind.Incoherent).getD i 0 := by
    intro i
    rw [htotal]
    simp only [mu_elam, clamp_log_energies, elam_spline, List.map_map]
    rw [map_getD_zero, map_getD_zero, map_getD_zero, map_getD_zero]
    cases es.get? i with
    | none => simp
    | some e => simp
  refine ⟨hsum, fun i => ?_, fun kind => ?_⟩
  · rw [hsum i]
    simp only [mu_elam, clamp_log_energies, elam_spline, List.map_map]
    rw [map_getD_zero, map_getD_zero, map_getD_zero]
    cases es.get? i with
    | none => simp
    | some e =>
        have h1 := Real.exp_pos (elam_spline_one srow.log_energy srow.log_coherent_scatter
          srow.log_coherent_scatter_spline (Real.log (max 100 (min e 800000))))
        have h2 := Real.exp_pos (elam_spline_one srow.log_energy srow.log_incoherent_scatter
          srow.log_incoherent_scatter_spline (Real.log (max 100 (min e 800000))))
        simp only [Option.map_some', Option.getD_some, Function.comp_apply]
        linarith
  · have hclamp : clamp_log_energies (es.map (fun e => max 100 (min e 800000))) =
        clamp_log_energies es := by
      simp only [clamp_log_energies, List.map_map]
      refine List.map_congr_left (fun e _ => ?_)
      have h1 : min (max 100 (min e 800000)) 800000 = max 100 (min e 800000) := by
        refine min_eq_left (max_le (by norm_num) (min_le_right e 800000))
      simp only [Function.comp_apply]
      rw [h1, ← max_assoc, max_self]
    simp only [mu_elam]
    rw [hclamp]

section ChemparseExamples

attribute [local semireducible] Rat.mul Rat.add

set_option maxRecDepth 4000 in
/-- Claim C6: the chemparse round-trip examples. `H2O` and `D2O` (with `D`
aliased to `H`) give `{H:2, O:1}`; `Mn(SO4)2(H2O)7` distributes the group
multipliers to `{Mn:1, S:2, O:15, H:14}`; `Zn1.e-5Fe3O4` lexes the `e` after
digits as a scientific exponent, giving `{Zn:1e-5, Fe:3, O:4}`;
`Fe.7Mg.3O` parses identically to `Fe0.7Mg0.3O`; and `co` and `Xx` fail. -/
theorem chemparse_examples :
    chemparse "H2O" = some [("H", 2), ("O", 1)] ∧
    chemparse "D2O" = some [("H", 2), ("O", 1)] ∧
    chemparse "Mn(SO4)2(H2O)7" = some [("Mn", 1), ("S", 2), ("O", 15), ("H", 14)] ∧
    chemparse "Zn1.e-5Fe3O4" = some [("Zn", mkRat 1 100000), ("Fe", 3), ("O", 4)] ∧
    chemparse "Fe.7Mg.3O" = chemparse "Fe0.7Mg0.3O" ∧
    chemparse "co" = none ∧
    chemparse "Xx" = none := by
  refine ⟨?_, ?_, ?_, ?_, ?_, ?_, ?_⟩ <;> decide

end ChemparseExamples

lemma interp_loglog_const_pos (c : ℝ) (hc : 0 < c) :
    interp_loglog [1] [1, 2] [c, c] = [c] := by
  simp only [interp_loglog, interp, List.map_cons, List.map_nil, Real.log_one]
  simp only [interp_one, interp_one?, List.get?, Option.bind_eq_bind, Option.some_bind]
  rw [if_pos le_rfl]
  simp [Real.exp_log hc]

/-- Claim C2, counterexample: the log-log kernel applies no 1e-99 floor to
its inputs.  With a value array holding 1e-100 (absolute value below 1e-99),
`interp_loglog` returns 1e-100, while flooring the values first (as the
claim requires of the kernel) returns 1e-99. -/
theorem interp_loglog_floor_counterexample :
    interp_loglog [1] [1, 2] [(1e-100 : ℝ), 1e-100] = [(1e-100 : ℝ)] ∧
    interp_loglog [1] [1, 2] (safe_for_log [(1e-100 : ℝ), 1e-100]) = [(1e-99 : ℝ)] ∧
    (1e-100 : ℝ) ≠ (1e-99 : ℝ) := by
  have habs : |(1e-100 : ℝ)| < 1e-99 := by
    rw [abs_of_pos (by norm_num : (0 : ℝ) < 1e-100)]
    norm_num
  have hsafe : safe_for_log [(1e-100 : ℝ), 1e-100] = [(1e-99 : ℝ), 1e-99] := by
    simp [safe_for_log, habs]
  refine ⟨interp_loglog_const_pos _ (by norm_num), ?_, by norm_num⟩
  rw [hsafe]
  exact interp_loglog_const_pos _ (by norm_num)

/-- Claim C2, amended: `interp_loglog` itself applies no floor — it is
exactly exp of linear interpolation of `ln x` over `(ln xp, ln fp)` of the
raw inputs; the 1e-99 flooring is applied by the Chantler callers, through
`safe_for_log`, to the value array only (never to the query or knot
arrays), so `mu_chantler` interpolates `ln` of clamped energies against
`ln` of knots and `ln` of floored values. -/
theorem interp_loglog_floor_location (r : ChantlerRecord) (es : List ℝ)
    (kind : ChantlerKind) (x xp fp : List ℝ) :
    mu_chantler r es kind =
      (interp
        ((clamp_energies es (chantler_energy_bounds r).1
          (chantler_energy_bounds r).2).map Real.log)
        (r.energy.map Real.log)
        ((chantler_kind_values r kind).map
          (fun v => Real.log (if |v| < 1e-99 then 1e-99 else v)))).map Real.exp ∧
    interp_loglog x xp fp =
      (interp (x.map Real.log) (xp.map Real.log) (fp.map Real.log)).map Real.exp := by
  constructor
  · simp only [mu_chantler, interp_loglog, safe_for_log, List.map_map]
    rfl
  · rfl

lemma partitionPoint_le_length (xs : List ℝ) (x : ℝ) :
    partitionPoint xs x ≤ xs.length :=
  length_takeWhile_le _ _

lemma elam_hi_eq_clamp (xin : List ℝ) (x : ℝ) (hlen : 2 ≤ xin.length) :
    elam_hi xin x = max 1 (min (partitionPoint xin x) (xin.length - 1)) := by
  simp only [elam_hi]
  split_ifs with h1 h2
  · rw [min_eq_right (by omega), max_eq_right (by omega)]
  · rw [h2, min_eq_left (Nat.zero_le _), max_eq_left (by omega)]
    exact min_eq_left (by omega)
  · rw [min_eq_left (by omega), max_eq_right (by omega)]

lemma elam_hi_bounds (xin : List ℝ) (x : ℝ) (hlen : 2 ≤ xin.length) :
    1 ≤ elam_hi xin x ∧ elam_hi xin x ≤ xin.length - 1 := by
  rw [elam_hi_eq_clamp xin x hlen]
  constructor
  · exact le_max_left 1 _
  · exact max_le (by omega) (min_le_right _ _)

lemma elam_spline_one?_eq_formula (xin yin yspl : List ℝ) (x : ℝ)
    (hlen : 2 ≤ xin.length) (hy : yin.length = xin.length)
    (hs : yspl.length = xin.length) :
    elam_spline_one? xin yin yspl x =
      some ((xin.getD (elam_hi xin x) 0 - x) /
          (xin.getD (elam_hi xin x) 0 - xin.getD (elam_hi xin x - 1) 0) *
          yin.getD (elam_hi xin x - 1) 0 +
        (x - xin.getD (elam_hi xin x - 1) 0) /
          (xin.getD (elam_hi xin x) 0 - xin.getD (elam_hi xin x - 1) 0) *
          yin.getD (elam_hi xin x) 0 +
        (xin.getD (elam_hi xin x) 0 - xin.getD (elam_hi xin x - 1) 0) *
          (xin.getD (elam_hi xin x) 0 - xin.getD (elam_hi xin x - 1) 0) / 6 *
          (((xin.getD (elam_hi xin x) 0 - x) /
              (xin.getD (elam_hi xin x) 0 - xin.getD (elam_hi xin x - 1) 0) *
              ((xin.getD (elam_hi xin x) 0 - x) /
                (xin.getD (elam_hi xin x) 0 - xin.getD (elam_hi xin x - 1) 0)) - 1) *
            ((xin.getD (elam_hi xin x) 0 - x) /
              (xin.getD (elam_hi xin x) 0 - xin.getD (elam_hi xin x - 1) 0)) *
            yspl.getD (elam_hi xin x - 1) 0 +
           ((x - xin.getD (elam_hi xin x - 1) 0) /
              (xin.getD (elam_hi xin x) 0 - xin.getD (elam_hi xin x - 1) 0) *
              ((x - xin.getD (elam_hi xin x - 1) 0) /
                (xin.getD (elam_hi xin x) 0 - xin.getD (elam_hi xin x - 1) 0)) - 1) *
            ((x - xin.getD (elam_hi xin x - 1) 0) /
              (xin.getD (elam_hi xin x) 0 - xin.getD (elam_hi xin x - 1) 0)) *
            yspl.getD (elam_hi xin x) 0)) := by
  obtain ⟨hhi1, hhi2⟩ := elam_hi_bounds xin x hlen
  have hfin : ¬(xin.length = 0) := by omega
  have hhi0 : ¬(elam_hi xin x = 0) := by omega
  have hhilt : elam_hi xin x < xin.length := by omega
  have hlolt : elam_hi xin x - 1 < xin.length := by omega
  have hyhi : elam_hi xin x < yin.length := by omega
  have hylo : elam_hi xin x - 1 < yin.length := by omega
  have hshi : elam_hi xin x < yspl.length := by omega
  have hslo : elam_hi xin x - 1 < yspl.length := by omega
  simp only [elam_spline_one?, if_neg hfin, if_neg hhi0]
  rw [List.get?_eq_get hhilt, List.get?_eq_get hlolt, List.get?_eq_get hyhi,
    List.get?_eq_get hylo, List.get?_eq_get hshi, List.get?_eq_get hslo]
  simp only [Option.some_bind, Option.bind_eq_bind]
  have hxg : ∀ (l : List ℝ) (i : ℕ) (h : i < l.length), l.get ⟨i, h⟩ = l.getD i 0 := by
    intro l i h
    rw [List.getD_eq_get?, List.get?_eq_get h, Option.getD_some]
  rw [hxg xin _ hhilt, hxg xin _ hlolt, hxg yin _ hyhi, hxg yin _ hylo,
    hxg yspl _ hshi, hxg yspl _ hslo]
  rfl

/-- Claim C4: for a strictly increasing knot array of length at least 2 with
matching value and second-derivative arrays, `elam_spline` selects
`hi = clamp(partition_point(xin < x), 1, len-1)`, `lo = hi-1`, and returns
`a·yin[lo] + b·yin[hi] + (h²/6)·((a³-a)·yspl[lo] + (b³-b)·yspl[hi])` for
every query `x`, including queries outside the knot range (no endpoint
clamping: out-of-range queries use the same bracket formula, i.e. they
extrapolate). -/
theorem elam_spline_bracket_and_formula (xin yin yspl : List ℝ) (x : ℝ)
    (hlen : 2 ≤ xin.length) (hsort : List.Sorted (· < ·) xin)
    (hy : yin.length = xin.length) (hs : yspl.length = xin.length) :
    elam_hi xin x = max 1 (min (partitionPoint xin x) (xin.length - 1)) ∧
    elam_spline_one? xin yin yspl x =
      some ((xin.getD (elam_hi xin x) 0 - x) /
          (xin.getD (elam_hi xin x) 0 - xin.getD (elam_hi xin x - 1) 0) *
          yin.getD (elam_hi xin x - 1) 0 +
        (x - xin.getD (elam_hi xin x - 1) 0) /
          (xin.getD (elam_hi xin x) 0 - xin.getD (elam_hi xin x - 1) 0) *
          yin.getD (elam_hi xin x) 0 +
        (xin.getD (elam_hi xin x) 0 - xin.getD (elam_hi xin x - 1) 0) ^ 2 / 6 *
          ((((xin.getD (elam_hi xin x) 0 - x) /
              (xin.getD (elam_hi xin x) 0 - xin.getD (elam_hi xin x - 1) 0)) ^ 3 -
              (xin.getD (elam_hi xin x) 0 - x) /
              (xin.getD (elam_hi xin x) 0 - xin.getD (elam_hi xin x - 1) 0)) *
            yspl.getD (elam_hi xin x - 1) 0 +
           (((x - xin.getD (elam_hi xin x - 1) 0) /
              (xin.getD (elam_hi xin x) 0 - xin.getD (elam_hi xin x - 1) 0)) ^ 3 -
              (x - xin.getD (elam_hi xin x - 1) 0) /
              (xin.getD (elam_hi xin x) 0 - xin.getD (elam_hi xin x - 1) 0)) *
            yspl.getD (elam_hi xin x) 0)) := by
  refine ⟨elam_hi_eq_clamp xin x hlen, ?_⟩
  rw [elam_spline_one?_eq_formula xin yin yspl x hlen hy hs]
  congr 1
  ring

/-- Witness for the bracket-formula theorem at the out-of-range query
`x = 5` on knots `[0, 1]` (extrapolation through the last bracket). -/
theorem elam_spline_bracket_and_formula_witness :
    elam_hi [0, 1] 5 = 1 ∧ elam_spline_one? [0, 1] [2, 3] [4, 5] 5 = some 67 := by
  have hsorted : List.Sorted (· < ·) ([0, 1] : List ℝ) := by
    norm_num [List.sorted_cons]
  have h := elam_spline_bracket_and_formula [0, 1] [2, 3] [4, 5] 5 (by norm_num) hsorted
    (by norm_num) (by norm_num)
  have hpp : partitionPoint [0, 1] (5 : ℝ) = 2 := by
    norm_num [partitionPoint, List.takeWhile_cons]
  have hhi : elam_hi [0, 1] (5 : ℝ) = 1 := by
    rw [h.1, hpp]
    norm_num
  refine ⟨hhi, ?_⟩
  rw [h.2, hhi]
  norm_num [List.getD]

lemma interp_one?_isSome (x : ℝ) (xp fp : List ℝ) (hne : xp ≠ [])
    (hlen : fp.length = xp.length) : (interp_one? x xp fp).isSome := by
  have h0 : 0 < xp.length := List.length_pos.2 hne
  have h0' : 0 < fp.length := by omega
  have hlast : xp.length - 1 < xp.length := by omega
  have hflast : fp.length - 1 < fp.length := by omega
  have hg : ∀ (l : List ℝ) (n : ℕ), n < l.length → (l.get? n).isSome := by
    intro l n h
    rw [List.get?_eq_get h]
    rfl
  simp only [interp_one?, List.get?_eq_get h0, Option.some_bind, Option.bind_eq_bind]
  by_cases hb1 : x ≤ xp.get ⟨0, h0⟩
  · rw [if_pos hb1]
    exact hg fp 0 h0'
  · rw [if_neg hb1, List.get?_eq_get hlast]
    simp only [Option.some_bind]
    by_cases hb2 : x ≥ xp.get ⟨xp.length - 1, hlast⟩
    · rw [if_pos hb2]
      exact hg fp _ hflast
    · rw [if_neg hb2]
      by_cases hb3 : partitionPoint xp x = 0
      · rw [if_pos hb3]
        exact hg fp 0 h0'
      · rw [if_neg hb3]
        have hppn : partitionPoint xp x < xp.length := by
          rcases lt_or_eq_of_le (partitionPoint_le_length xp x) with h | h
          · exact h
          · exfalso
            have hall : ∀ a ∈ xp, (fun v => decide (v < x)) a = true :=
              takeWhile_full_mem _ _ h
            have hmem : xp.get ⟨xp.length - 1, hlast⟩ ∈ xp := List.get_mem xp _ hlast
            have := hall _ hmem
            simp only [decide_eq_true_eq] at this
            exact hb2 (le_of_lt this)
        rw [List.get?_eq_get hppn]
        simp only [Option.some_bind]
        have hpplt : partitionPoint xp x < fp.length := by omega
        have hlo : partitionPoint xp x - 1 < xp.length := by omega
        have hflo : partitionPoint xp x - 1 < fp.length := by omega
        by_cases hb4 : |xp.get ⟨partitionPoint xp x, hppn⟩ - x| <
            f64_epsilon * |xp.get ⟨partitionPoint xp x, hppn⟩|
        · rw [if_pos hb4]
          exact hg fp _ hpplt
        · rw [if_neg hb4]
          rw [List.get?_eq_get hlo, List.get?_eq_get hflo, List.get?_eq_get hpplt]
          simp

/-- Claim C9: for length ≥ 2 knot arrays with matching value arrays, the
Elam spline bracket indices satisfy `1 ≤ hi ≤ len-1` (so `lo = hi-1 ≥ 0`)
and every access is in bounds for any query; `interp_one` is in bounds for
every non-empty `xp` with `fp` of equal length; but neither kernel checks
these preconditions: a length-0 or length-1 knot array for `elam_spline`,
or an empty `xp` for `interp_one`, reaches an out-of-bounds access or
`usize` underflow (modelled by `none`). -/
theorem spline_interp_bounds_safety :
    (∀ (xin yin yspl : List ℝ) (x : ℝ), 2 ≤ xin.length →
      List.Sorted (· < ·) xin → yin.length = xin.length → yspl.length = xin.length →
      (1 ≤ elam_hi xin x ∧ elam_hi xin x ≤ xin.length - 1) ∧
      (elam_spline_one? xin yin yspl x).isSome) ∧
    (∀ (x : ℝ) (xp fp : List ℝ), xp ≠ [] → fp.length = xp.length →
      (interp_one? x xp fp).isSome) ∧
    elam_spline_one? [] [] [] 0 = none ∧
    elam_spline_one? [5] [5] [5] 0 = none ∧
    interp_one? 0 [] [] = none := by
  refine ⟨?_, interp_one?_isSome, ?_, ?_, ?_⟩
  · intro xin yin yspl x hlen _hsort hy hs
    refine ⟨elam_hi_bounds xin x hlen, ?_⟩
    rw [elam_spline_one?_eq_formula xin yin yspl x hlen hy hs]
    rfl
  · simp [elam_spline_one?]
  · norm_num [elam_spline_one?, elam_hi, partitionPoint, List.takeWhile_cons]
  · simp [interp_one?]

/-- Witness for the safety theorem: length-2 knots are in bounds for an
out-of-range query, and a non-empty two-point table is in bounds for
`interp_one`. -/
theorem spline_interp_bounds_safety_witness :
    ((1 ≤ elam_hi [0, 1] 7 ∧ elam_hi [0, 1] 7 ≤ ([0, 1] : List ℝ).length - 1) ∧
      (elam_spline_one? [0, 1] [0, 0] [0, 0] 7).isSome) ∧
    (interp_one? 7 [0, 1] [3, 4]).isSome :=
  ⟨spline_interp_bounds_safety.1 [0, 1] [0, 0] [0, 0] 7 (by norm_num)
      (by norm_num [List.sorted_cons]) (by norm_num) (by norm_num),
    spline_interp_bounds_safety.2.1 7 [0, 1] [3, 4] (by simp) (by norm_num)⟩

lemma ionchamber_gas_sums_total (μ : String → ℝ → CrossSectionKind → ℝ)
    (ionpot : String → Option ℝ) (gas_total energy : ℝ) :
    ∀ (gases : List (String × ℝ)) (acc : GasSums),
      List.foldlM (ionchamber_gas_step (fun g e k => some (μ g e k)) ionpot gas_total energy)
          acc gases =
        some (GasSums.mk
          (acc.mu_photo + (gases.map (fun gf =>
            μ (gas_lookup_name gf.1) energy CrossSectionKind.Photo * (gf.2 / gas_total))).sum)
          (acc.mu_incoh + (gases.map (fun gf =>
            μ (gas_lookup_name gf.1) energy CrossSectionKind.Incoherent * (gf.2 / gas_total))).sum)
          (acc.mu_total + (gases.map (fun gf =>
            μ (gas_lookup_name gf.1) energy CrossSectionKind.Total * (gf.2 / gas_total))).sum)
          (acc.mu_coh + (gases.map (fun gf =>
            μ (gas_lookup_name gf.1) energy CrossSectionKind.Coherent * (gf.2 / gas_total))).sum)
          (acc.ion_pot + (gases.map (fun gf =>
            ((ionpot gf.1).orElse (fun _ => ionpot (gas_lookup_name gf.1))).getD 32 *
              (gf.2 / gas_total))).sum)) := by
  intro gases
  induction gases with
  | nil =>
      intro acc
      simp
  | cons g gs ih =>
      intro acc
      rw [List.foldlM_cons]
      simp only [ionchamber_gas_step, Option.some_bind, Option.bind_eq_bind,
        Option.pure_def]
      rw [ih]
      simp only [List.map_cons, List.sum_cons, Option.some.injEq, GasSums.mk.injEq]
      refine ⟨by ring, by ring, by ring, by ring, by ring⟩

/-- Claim C7: for gas fractions summing to a positive total,
`ionchamber_fluxes` computes `A_total = 1 − exp(−L·µ_total)`, per-kind
`A_k = A_total·µ_k/µ_total` (zero when `µ_total` is not positive),
`E_abs = ncarriers·(E·A_photo + E_compton·A_incoh)`, incident flux
`V·S·IP/(q·E_abs)` when `E_abs > 0` and 0 otherwise, and returns
`transmitted = incident·(1 − A_total)` and each partial flux
`incident·A_k`; when the summed fractions are ≤ 0 it fails with the
`DataError`. -/
theorem ionchamber_fluxes_formulas (μ : String → ℝ → CrossSectionKind → ℝ)
    (ionpot : String → Option ℝ) (em : ℝ → ℝ) (gases : List (String × ℝ))
    (volts length_cm energy sensitivity : ℝ) (wc bc : Bool) :
    (0 < (gases.map Prod.snd).sum →
      ionchamber_fluxes (fun g e k => some (μ g e k)) ionpot em gases volts length_cm
          energy sensitivity wc bc =
        (let T := (gases.map Prod.snd).sum
        let muP := (gases.map (fun gf =>
          μ (gas_lookup_name gf.1) energy CrossSectionKind.Photo * (gf.2 / T))).sum
        let muI := (gases.map (fun gf =>
          μ (gas_lookup_name gf.1) energy CrossSectionKind.Incoherent * (gf.2 / T))).sum
        let muT := (gases.map (fun gf =>
          μ (gas_lookup_name gf.1) energy CrossSectionKind.Total * (gf.2 / T))).sum
        let muC := (gases.map (fun gf =>
          μ (gas_lookup_name gf.1) energy CrossSectionKind.Coherent * (gf.2 / T))).sum
        let ip := (gases.map (fun gf =>
          ((ionpot gf.1).orElse (fun _ => ionpot (gas_lookup_name gf.1))).getD 32 *
            (gf.2 / T))).sum
        let A := 1 - Real.exp (-length_cm * muT)
        let Ap := if 0 < muT then A * muP / muT else 0
        let Ai := if 0 < muT then A * muI / muT else 0
        let Ac := if 0 < muT then A * muC / muT else 0
        let Eabs := (if bc then (2 : ℝ) else 1) *
          (energy * Ap + (if wc then em energy else 0) * Ai)
        let flux := if 0 < Eabs then
            volts * sensitivity * ip / (ELEMENTARY_CHARGE * Eabs)
          else 0
        Except.ok (IonChamberFluxes.mk flux (flux * (1 - A)) (flux * Ap) (flux * Ai)
          (flux * Ac)))) ∧
    ((gases.map Prod.snd).sum ≤ 0 →
      ionchamber_fluxes (fun g e k => some (μ g e k)) ionpot em gases volts length_cm
          energy sensitivity wc bc = Except.error IonErr.dataError) := by
  constructor
  · intro h
    simp only [ionchamber_fluxes, ionchamber_gas_sums, if_neg (not_le.mpr h)]
    rw [ionchamber_gas_sums_total]
    simp only [zero_add]
  · intro h
    simp only [ionchamber_fluxes, if_pos h]

/-- Witness for the ion-chamber formulas on a single fictitious gas with
all mass-attenuation oracles equal to 1, no ionization-potential row
(default 32.0 eV), unit chamber parameters, no Compton contribution and a
single carrier. -/
theorem ionchamber_fluxes_formulas_witness :
    ionchamber_fluxes (fun _ _ _ => some 1) (fun _ => none) (fun _ => 0)
        [("Ar", 2)] 1 1 1 1 false false =
      Except.ok (IonChamberFluxes.mk
        (32 / (ELEMENTARY_CHARGE * (1 - Real.exp (-1))))
        (32 / (ELEMENTARY_CHARGE * (1 - Real.exp (-1))) * Real.exp (-1))
        (32 / (ELEMENTARY_CHARGE * (1 - Real.exp (-1))) * (1 - Real.exp (-1)))
        (32 / (ELEMENTARY_CHARGE * (1 - Real.exp (-1))) * (1 - Real.exp (-1)))
        (32 / (ELEMENTARY_CHARGE * (1 - Real.exp (-1))) * (1 - Real.exp (-1)))) := by
  have h := (ionchamber_fluxes_formulas (fun _ _ _ => 1) (fun _ => none) (fun _ => 0)
    [("Ar", 2)] 1 1 1 1 false false).1 (by norm_num)
  rw [h]
  have hexp : Real.exp (-1) < 1 := Real.exp_lt_one_iff.mpr (by norm_num)
  have hA : (0 : ℝ) < 1 - Real.exp (-1) := by linarith
  norm_num [hA]

lemma mem_keys_insertLine {α : Type} (m : List (String × XrayLine α)) (k : String)
    (v : XrayLine α) : k ∈ (insertLine m k v).map Prod.fst := by
  induction m with
  | nil => simp [insertLine]
  | cons p rest ih =>
      obtain ⟨k', w⟩ := p
      by_cases h : k' = k
      · simp [insertLine, h]
      · simp only [insertLine, if_neg h, List.map_cons, List.mem_cons]
        exact Or.inr ih

lemma mem_keys_insertLine_mono {α : Type} (m : List (String × XrayLine α))
    (k' k : String) (v : XrayLine α) (h : k' ∈ m.map Prod.fst) :
    k' ∈ (insertLine m k v).map Prod.fst := by
  induction m with
  | nil => simp at h
  | cons p rest ih =>
      obtain ⟨k0, w⟩ := p
      by_cases hk : k0 = k
      · simp only [insertLine, if_pos hk, List.map_cons, List.mem_cons]
        simp only [List.map_cons, List.mem_cons] at h
        rcases h with h | h
        · exact Or.inl (hk ▸ h)
        · exact Or.inr h
      · simp only [insertLine, if_neg hk, List.map_cons, List.mem_cons]
        simp only [List.map_cons, List.mem_cons] at h
        rcases h with h | h
        · exact Or.inl h
        · exact Or.inr (ih h)

lemma mem_keys_xray_lines_fold {α : Type} [LinearOrder α]
    (levels : List (XrayLevelRec α)) (sym : String) (il : Option String)
    (ee : Option α) :
    ∀ (ts : List (XrayTransitionRec α)) (m : List (String × XrayLine α)) (k : String),
      k ∈ m.map Prod.fst →
      k ∈ (ts.foldl (fun m t =>
        if xray_lines_keep levels sym il ee t then
          insertLine m t.siegbahn_symbol
            (XrayLine.mk t.emission_energy t.intensity t.initial_level t.final_level)
        else m) m).map Prod.fst := by
  intro ts
  induction ts with
  | nil => intro m k h; simpa using h
  | cons t rest ih =>
      intro m k h
      simp only [List.foldl_cons]
      by_cases hk : xray_lines_keep levels sym il ee t
      · rw [if_pos hk]
        exact ih _ k (mem_keys_insertLine_mono m k _ _ h)
      · rw [if_neg hk]
        exact ih _ k h

lemma mem_keys_xray_lines_of_kept {α : Type} [LinearOrder α]
    (levels : List (XrayLevelRec α)) (sym : String) (il : Option String)
    (ee : Option α) :
    ∀ (ts : List (XrayTransitionRec α)) (m : List (String × XrayLine α))
      (t : XrayTransitionRec α), t ∈ ts →
      xray_lines_keep levels sym il ee t = true →
      t.siegbahn_symbol ∈ (ts.foldl (fun m t =>
        if xray_lines_keep levels sym il ee t then
          insertLine m t.siegbahn_symbol
            (XrayLine.mk t.emission_energy t.intensity t.initial_level t.final_level)
        else m) m).map Prod.fst := by
  intro ts
  induction ts with
  | nil => intro m t h; simp at h
  | cons t0 rest ih =>
      intro m t hmem hkeep
      simp only [List.foldl_cons]
      rcases List.mem_cons.1 hmem with rfl | hmem
      · rw [if_pos hkeep]
        exact mem_keys_xray_lines_fold levels sym il ee rest _ _
          (mem_keys_insertLine m _ _)
      · by_cases hk : xray_lines_keep levels sym il ee t0
        · rw [if_pos hk]
          exact ih _ t hmem hkeep
        · rw [if_neg hk]
          exact ih _ t hmem hkeep

/-- Claim C10: with an excitation energy given (and no initial-level
filter), a transition of the element is dropped only when a level row with
the same element and an iupac symbol equal to the transition's initial
level exists whose absorption edge exceeds the excitation energy; a
transition whose initial level has no matching level row always passes the
filter and its Siegbahn key appears in the returned map. -/
theorem xray_lines_excitation_filtering {α : Type} [LinearOrder α]
    (levels : List (XrayLevelRec α)) (transitions : List (XrayTransitionRec α))
    (sym : String) (me : α) :
    (∀ t : XrayTransitionRec α, t.element = sym →
      xray_lines_keep levels sym none (some me) t = false →
      ∃ lvl ∈ levels, lvl.element = sym ∧ lvl.iupac_symbol = t.initial_level ∧
        me < lvl.absorption_edge) ∧
    (∀ t ∈ transitions, t.element = sym →
      (∀ lvl ∈ levels, ¬(lvl.element = sym ∧ lvl.iupac_symbol = t.initial_level)) →
      xray_lines_keep levels sym none (some me) t = true ∧
      t.siegbahn_symbol ∈ (xray_lines levels transitions sym none (some me)).map
        Prod.fst) := by
  have hkeep_char : ∀ t : XrayTransitionRec α, t.element = sym →
      (∀ lvl ∈ levels, ¬(lvl.element = sym ∧ lvl.iupac_symbol = t.initial_level)) →
      xray_lines_keep levels sym none (some me) t = true := by
    intro t helem hnone
    have hfind : levels.find? (fun l =>
        l.element = sym && l.iupac_symbol = t.initial_level) = none := by
      refine List.find?_eq_none.2 (fun lvl hl => ?_)
      have := hnone lvl hl
      simp only [Bool.and_eq_true, decide_eq_true_eq]
      intro hcontra
      exact this hcontra
    simp [xray_lines_keep, helem, hfind]
  constructor
  · intro t helem hkeep
    by_cases hex : ∀ lvl ∈ levels, ¬(lvl.element = sym ∧ lvl.iupac_symbol = t.initial_level)
    · rw [hkeep_char t helem hex] at hkeep
      exact absurd hkeep (by simp)
    · push_neg at hex
      cases hfind : levels.find? (fun l =>
          l.element = sym && l.iupac_symbol = t.initial_level) with
      | none =>
          exfalso
          simp only [xray_lines_keep, helem, hfind] at hkeep
          simp at hkeep
      | some lvl =>
          have hmem := List.mem_of_find?_eq_some hfind
          have hprop := List.find?_some hfind
          simp only [Bool.and_eq_true, decide_eq_true_eq] at hprop
          refine ⟨lvl, hmem, hprop.1, hprop.2, ?_⟩
          simp only [xray_lines_keep, helem, hfind] at hkeep
          simp at hkeep
          exact hkeep
  · intro t hmem helem hnone
    refine ⟨hkeep_char t helem hnone, ?_⟩
    exact mem_keys_xray_lines_of_kept levels sym none (some me) transitions [] t hmem
      (hkeep_char t helem hnone)

/-- Witness for the excitation filtering theorem over `ℤ`-valued energies:
the `Ka1` transition from the `K` level (edge 7112 > 3) is dropped because
a matching level row exists, while a transition from a level `X` with no
matching row is kept and its key appears in the result. -/
theorem xray_lines_excitation_filtering_witness :
    (∃ lvl ∈ ([XrayLevelRec.mk "Fe" "K" 7112 0 0] : List (XrayLevelRec ℤ)),
      lvl.element = "Fe" ∧ lvl.iupac_symbol = "K" ∧ (3 : ℤ) < lvl.absorption_edge) ∧
    (xray_lines_keep [XrayLevelRec.mk "Fe" "K" 7112 0 0] "Fe" none (some (3 : ℤ))
        (XrayTransitionRec.mk "Fe" "X-Y" "Xr1" "X" "Y" 1 1) = true ∧
      "Xr1" ∈ (xray_lines [XrayLevelRec.mk "Fe" "K" 7112 0 0]
        [XrayTransitionRec.mk "Fe" "K-L3" "Ka1" "K" "L3" 6404 1,
         XrayTransitionRec.mk "Fe" "X-Y" "Xr1" "X" "Y" 1 1] "Fe" none
          (some (3 : ℤ))).map Prod.fst) :=
  ⟨(xray_lines_excitation_filtering [XrayLevelRec.mk "Fe" "K" 7112 0 0]
      [XrayTransitionRec.mk "Fe" "K-L3" "Ka1" "K" "L3" 6404 1,
       XrayTransitionRec.mk "Fe" "X-Y" "Xr1" "X" "Y" 1 1] "Fe" (3 : ℤ)).1
      (XrayTransitionRec.mk "Fe" "K-L3" "Ka1" "K" "L3" 6404 1) rfl (by decide),
    (xray_lines_excitation_filtering [XrayLevelRec.mk "Fe" "K" 7112 0 0]
      [XrayTransitionRec.mk "Fe" "K-L3" "Ka1" "K" "L3" 6404 1,
       XrayTransitionRec.mk "Fe" "X-Y" "Xr1" "X" "Y" 1 1] "Fe" (3 : ℤ)).2
      (XrayTransitionRec.mk "Fe" "X-Y" "Xr1" "X" "Y" 1 1) (by decide) rfl (by decide)⟩

lemma darwin_eqr_none_of_bad_parity (h k l : ℤ)
    (hne : ¬(4 ∣ (h + k + l) ∧ Even h ∧ Even k ∧ Even l))
    (hno : ¬(Odd h ∧ Odd k ∧ Odd l)) : darwin_eqr h k l = none := by
  unfold darwin_eqr
  rw [if_neg, if_neg]
  · intro ⟨h2, k2, l2⟩
    exact hno ⟨Int.odd_iff.2 (by omega), Int.odd_iff.2 (by omega), Int.odd_iff.2 (by omega)⟩
  · intro ⟨h4, h2, k2, l2⟩
    exact hne ⟨Int.dvd_of_emod_eq_zero h4, Int.even_iff.2 h2, Int.even_iff.2 k2,
      Int.even_iff.2 l2⟩

/-- Claim C8: `darwin_width` fails with the `DataError` for every Miller
triple that is neither all even with `h+k+l` divisible by 4 (`eqr = 8`) nor
all odd (`eqr = 4·√2`), including triples with negative components; and for
an accepted triple on a supported crystal with positive energy, whenever
`λ = 12398.4193/energy` exceeds `2d` with `d = a/√(h²+k²+l²)` it returns
`Ok(None)`, before any table lookup. -/
theorem darwin_width_parity_and_bragg (f1q f2q f0q : String → ℝ → Option ℝ)
    (energy : ℝ) (crystal : String) (h k l : ℤ) (a_opt : Option ℝ)
    (pol : Polarization) (i1 i2 : Bool) (m : ℤ) :
    (¬(4 ∣ (h + k + l) ∧ Even h ∧ Even k ∧ Even l) →
      ¬(Odd h ∧ Odd k ∧ Odd l) →
      darwin_width f1q f2q f0q energy crystal (h, k, l) a_opt pol i1 i2 m =
        Except.error OpticsErr.dataError) ∧
    (∀ eqr lat : ℝ, darwin_eqr h k l = some eqr → darwin_lattice crystal = some lat →
      (h, k, l) ≠ (0, 0, 0) → 0 < energy →
      2 * (a_opt.getD lat / Real.sqrt ((h * h + k * k + l * l : ℤ) : ℝ)) <
        PLANCK_HC_ANGSTROM / energy →
      darwin_width f1q f2q f0q energy crystal (h, k, l) a_opt pol i1 i2 m =
        Except.ok none) := by
  constructor
  · intro hne hno
    simp only [darwin_width, darwin_eqr_none_of_bad_parity h k l hne hno]
  · intro eqr lat heqr hlat _hne _hE hineq
    simp only [darwin_width, heqr, hlat]
    rw [if_pos hineq]

/-- Witness for the Darwin-width guard theorem: the mixed-parity triple
`(-1, -1, 2)` (with negative components) is rejected, and `Si (1,1,1)` at
100 eV has wavelength above `2d`, so the Bragg condition fails and `None`
is returned. -/
theorem darwin_width_parity_and_bragg_witness :
    darwin_width (fun _ _ => some 0) (fun _ _ => some 0) (fun _ _ => some 0)
        10000 "Si" (-1, -1, 2) none Polarization.S false false 1 =
      Except.error OpticsErr.dataError ∧
    darwin_width (fun _ _ => some 0) (fun _ _ => some 0) (fun _ _ => some 0)
        100 "Si" (1, 1, 1) none Polarization.S false false 1 =
      Except.ok none := by
  constructor
  · exact (darwin_width_parity_and_bragg _ _ _ 10000 "Si" (-1) (-1) 2 none
      Polarization.S false false 1).1 (by decide) (by decide)
  · refine (darwin_width_parity_and_bragg _ _ _ 100 "Si" 1 1 1 none
      Polarization.S false false 1).2 (4 * Real.sqrt 2) 5.4309 ?_ ?_ (by decide)
      (by norm_num) ?_
    · unfold darwin_eqr
      rw [if_neg (by decide), if_pos (by decide)]
    · unfold darwin_lattice
      rw [if_pos]
      decide
    · have h1 : (1 : ℝ) ≤ Real.sqrt 3 := by
        rw [show (1 : ℝ) = Real.sqrt 1 from Real.sqrt_one.symm]
        exact Real.sqrt_le_sqrt (by norm_num)
      have h2 : (0 : ℝ) < Real.sqrt 3 := by positivity
      have h3 : (5.4309 : ℝ) / Real.sqrt 3 ≤ 5.4309 / 1 := by
        apply div_le_div_of_nonneg_left (by norm_num) (by norm_num) h1
      simp only [Option.getD_none, PLANCK_HC_ANGSTROM]
      norm_num at h3
      norm_num
      linarith

lemma csqrt_zero : csqrt 0 = 0 := by
  simp [csqrt]

lemma csqrt_re_nonneg (z : ℂ) : 0 ≤ (csqrt z).re := by
  unfold csqrt
  split_ifs with h
  · simp
  · rw [Complex.exp_re]
    apply mul_nonneg (le_of_lt (Real.exp_pos _))
    apply Real.cos_nonneg_of_mem_Icc
    have him : (Complex.log z / 2).im = Complex.arg z / 2 := by
      rw [Complex.div_im]
      simp [Complex.log_im]
      ring
    rw [him]
    have h1 := Complex.neg_pi_lt_arg z
    have h2 := Complex.arg_le_pi z
    constructor <;> [linarith; linarith]

lemma csqrt_sq {z : ℂ} (hz : 0 < z.re) : csqrt (z * z) = z := by
  have hz0 : z ≠ 0 := by
    intro h
    rw [h] at hz
    simp at hz
  have hzz : z * z ≠ 0 := mul_ne_zero hz0 hz0
  have hwre : 0 ≤ (csqrt (z * z)).re := csqrt_re_nonneg (z * z)
  rw [csqrt, if_neg hzz] at hwre ⊢
  set w := Complex.exp (Complex.log (z * z) / 2) with hw
  have hw2 : w * w = z * z := by
    rw [hw, ← Complex.exp_add, add_halves, Complex.exp_log hzz]
  have hcases : (w - z) * (w + z) = 0 := by
    have hring : (w - z) * (w + z) = w * w - z * z := by ring
    rw [hring, hw2, sub_self]
  rcases mul_eq_zero.1 hcases with h | h
  · exact sub_eq_zero.1 h
  · exfalso
    have hwz : w = -z := eq_neg_of_add_eq_zero_left h
    rw [hwz] at hwre
    simp only [Complex.neg_re] at hwre
    linarith

lemma div_frac_combine (u v p : ℂ) (hv : v ≠ 0) :
    (u / v + p) / (1 + u / v * p) = (u + v * p) / (v + u * p) := by
  have h1 : u / v + p = (u + v * p) / v := by
    field_simp
    ring
  have h2 : 1 + u / v * p = (v + u * p) / v := by
    field_simp
  rw [h1, h2, div_div_div_cancel_right₀]
  exact hv

lemma normSq_blend_sub (u v : ℂ) (p : ℝ) :
    Complex.normSq (u + v * (p : ℂ)) - Complex.normSq (v + u * (p : ℂ)) =
      (Complex.normSq u - Complex.normSq v) * (1 - p ^ 2) := by
  simp only [Complex.normSq_apply, Complex.add_re, Complex.add_im, Complex.mul_re,
    Complex.mul_im, Complex.ofReal_re, Complex.ofReal_im]
  ring

lemma normSq_blend_lt_one (u v : ℂ) (p : ℝ)
    (huv : Complex.normSq u < Complex.normSq v) (hp1 : p ^ 2 < 1)
    (hB : v + u * (p : ℂ) ≠ 0) :
    Complex.normSq ((u + v * (p : ℂ)) / (v + u * (p : ℂ))) < 1 := by
  rw [map_div₀]
  rw [div_lt_one (Complex.normSq_pos.2 hB)]
  have := normSq_blend_sub u v p
  nlinarith

lemma one_lt_normSq_blend (u v : ℂ) (p : ℝ)
    (huv : Complex.normSq u < Complex.normSq v) (hp1 : 1 < p ^ 2)
    (hB : v + u * (p : ℂ) ≠ 0) :
    1 < Complex.normSq ((u + v * (p : ℂ)) / (v + u * (p : ℂ))) := by
  rw [map_div₀]
  rw [lt_div_iff (Complex.normSq_pos.2 hB), one_mul]
  have := normSq_blend_sub u v p
  nlinarith

lemma parratt_theta_single_eval (n0 : ℂ) (hre : 0 < n0.re)
    (hden : ((Real.pi : ℝ) : ℂ) + n0 * ((Real.pi : ℝ) : ℂ) ≠ 0) :
    parratt_theta Polarization.S Real.pi [n0] [1] 0 0 0 (Real.pi / 2) =
      some (Complex.normSq
        ((((Real.pi : ℝ) : ℂ) - n0 * ((Real.pi : ℝ) : ℂ) +
            (((Real.pi : ℝ) : ℂ) + n0 * ((Real.pi : ℝ) : ℂ)) *
              Complex.exp ((⟨0, 2⟩ : ℂ) * (n0 * ((Real.pi : ℝ) : ℂ)))) /
          (((Real.pi : ℝ) : ℂ) + n0 * ((Real.pi : ℝ) : ℂ) +
            (((Real.pi : ℝ) : ℂ) - n0 * ((Real.pi : ℝ) : ℂ)) *
              Complex.exp ((⟨0, 2⟩ : ℂ) * (n0 * ((Real.pi : ℝ) : ℂ)))))) := by
  have hn0 : n0 ≠ 0 := by
    intro h
    rw [h] at hre
    simp at hre
  have hpi : ((Real.pi : ℝ) : ℂ) ≠ 0 := by
    simp [Real.pi_ne_zero]
  have hkz0 : n0 * ((Real.pi : ℝ) : ℂ) ≠ 0 := mul_ne_zero hn0 hpi
  have h12 : ¬((1e-12 : ℝ) ≤ 0) := by norm_num
  simp only [parratt_theta, Real.cos_pi_div_two, Real.sin_pi_div_two, mul_one, mul_zero,
    zero_mul, Complex.ofReal_zero, sub_zero, List.map_cons, List.map_nil,
    List.length_cons, List.length_nil, List.getD_cons_zero, csqrt_zero, csqrt_sq hre,
    List.range_zero, List.reverse_nil, List.foldl_nil, if_neg h12, Complex.ofReal_one,
    Option.some_bind, Option.bind_eq_bind, Option.pure_def, add_zero, zero_add,
    Nat.add_sub_cancel, Nat.sub_self, div_self hkz0, one_mul]
  rw [if_neg (by norm_num)]
  rw [div_frac_combine _ _ _ hden, Complex.mul_conj, Complex.ofReal_re]

/-- Concrete `xray_delta_beta` oracle for the sign-observability
configuration: layer material `A` has `(δ, β) = (0, 1)`, everything else
(the substrate) has `(δ, β) = (1, 0)`. -/
noncomputable def xdb_c3 : String → ℝ → ℝ → Option (ℝ × ℝ × ℝ) :=
  fun f _ _ => if f = "A" then some (0, 1, 0) else some (1, 0, 0)

lemma replicateList_one {α : Type} (l : List α) : replicateList 1 l = l := by
  unfold replicateList
  rw [show List.range 1 = [0] from rfl]
  simp

lemma pi_c3_den (n0 : ℂ) (hre : 0 < n0.re) :
    ((Real.pi : ℝ) : ℂ) + n0 * ((Real.pi : ℝ) : ℂ) ≠ 0 := by
  intro h
  rw [Complex.ext_iff] at h
  simp only [Complex.add_re, Complex.mul_re, Complex.ofReal_re, Complex.ofReal_im,
    Complex.zero_re, mul_zero, sub_zero] at h
  have hpi := Real.pi_pos
  nlinarith [h.1]

lemma multilayer_c3_plus :
    multilayer_reflectivity xdb_c3 ["A"] [1] "B" [Real.pi / 2] (PLANCK_HC_ANGSTROM / 2) 1
      [1] 1 0 0 Polarization.S =
    some [Complex.normSq
        ((((Real.pi : ℝ) : ℂ) - (⟨1, 1⟩ : ℂ) * ((Real.pi : ℝ) : ℂ) +
            (((Real.pi : ℝ) : ℂ) + (⟨1, 1⟩ : ℂ) * ((Real.pi : ℝ) : ℂ)) *
              Complex.exp ((⟨0, 2⟩ : ℂ) * ((⟨1, 1⟩ : ℂ) * ((Real.pi : ℝ) : ℂ)))) /
          (((Real.pi : ℝ) : ℂ) + (⟨1, 1⟩ : ℂ) * ((Real.pi : ℝ) : ℂ) +
            (((Real.pi : ℝ) : ℂ) - (⟨1, 1⟩ : ℂ) * ((Real.pi : ℝ) : ℂ)) *
              Complex.exp ((⟨0, 2⟩ : ℂ) * ((⟨1, 1⟩ : ℂ) * ((Real.pi : ℝ) : ℂ)))))] := by
  have hk0 : 2 * Real.pi * (PLANCK_HC_ANGSTROM / 2) / PLANCK_HC_ANGSTROM = Real.pi := by
    have hne : PLANCK_HC_ANGSTROM ≠ 0 := by norm_num [PLANCK_HC_ANGSTROM]
    field_simp
    ring
  have hA : parratt_index 0 1 = (⟨1, 1⟩ : ℂ) := by
    simp [parratt_index]
  have hB : parratt_index 1 0 = (0 : ℂ) := by
    simp [parratt_index, Complex.ext_iff]
  have hre : (0 : ℝ) < (⟨1, 1⟩ : ℂ).re := by norm_num
  simp only [multilayer_reflectivity, List.length_cons, List.length_nil, xdb_c3,
    List.zip_cons_cons, List.zip_nil_left, List.mapM_cons, List.mapM_nil,
    Option.bind_eq_bind, Option.some_bind, Option.pure_def, if_true, if_false,
    reduceIte, hA, hB, replicateList_one, hk0, zero_add]
  rw [if_neg (show ¬("B" : String) = "A" by decide)]
  simp only [Option.some_bind, hB]
  rw [parratt_theta_single_eval (⟨1, 1⟩ : ℂ) hre (pi_c3_den _ hre)]
  simp

lemma multilayer_c3_minus :
    multilayer_reflectivity_mirror_sign xdb_c3 ["A"] [1] "B" [Real.pi / 2]
      (PLANCK_HC_ANGSTROM / 2) 1 [1] 1 0 0 Polarization.S =
    some [Complex.normSq
        ((((Real.pi : ℝ) : ℂ) - (⟨1, -1⟩ : ℂ) * ((Real.pi : ℝ) : ℂ) +
            (((Real.pi : ℝ) : ℂ) + (⟨1, -1⟩ : ℂ) * ((Real.pi : ℝ) : ℂ)) *
              Complex.exp ((⟨0, 2⟩ : ℂ) * ((⟨1, -1⟩ : ℂ) * ((Real.pi : ℝ) : ℂ)))) /
          (((Real.pi : ℝ) : ℂ) + (⟨1, -1⟩ : ℂ) * ((Real.pi : ℝ) : ℂ) +
            (((Real.pi : ℝ) : ℂ) - (⟨1, -1⟩ : ℂ) * ((Real.pi : ℝ) : ℂ)) *
              Complex.exp ((⟨0, 2⟩ : ℂ) * ((⟨1, -1⟩ : ℂ) * ((Real.pi : ℝ) : ℂ)))))] := by
  have hk0 : 2 * Real.pi * (PLANCK_HC_ANGSTROM / 2) / PLANCK_HC_ANGSTROM = Real.pi := by
    have hne : PLANCK_HC_ANGSTROM ≠ 0 := by norm_num [PLANCK_HC_ANGSTROM]
    field_simp
    ring
  have hA : mirror_index 0 1 = (⟨1, -1⟩ : ℂ) := by
    simp [mirror_index]
  have hB : mirror_index 1 0 = (0 : ℂ) := by
    simp [mirror_index, Complex.ext_iff]
  have hre : (0 : ℝ) < (⟨1, -1⟩ : ℂ).re := by norm_num
  simp only [multilayer_reflectivity_mirror_sign, List.length_cons, List.length_nil,
    xdb_c3, List.zip_cons_cons, List.zip_nil_left, List.mapM_cons, List.mapM_nil,
    Option.bind_eq_bind, Option.some_bind, Option.pure_def, if_true, if_false,
    reduceIte, hA, hB, replicateList_one, hk0, zero_add]
  rw [if_neg (show ¬("B" : String) = "A" by decide)]
  simp only [Option.some_bind, hB]
  rw [parratt_theta_single_eval (⟨1, -1⟩ : ℂ) hre (pi_c3_den _ hre)]
  simp

lemma c3_exp_plus :
    Complex.exp ((⟨0, 2⟩ : ℂ) * ((⟨1, 1⟩ : ℂ) * ((Real.pi : ℝ) : ℂ))) =
      ((Real.exp (-(2 * Real.pi)) : ℝ) : ℂ) := by
  have h1 : (⟨0, 2⟩ : ℂ) * ((⟨1, 1⟩ : ℂ) * ((Real.pi : ℝ) : ℂ)) =
      ((-(2 * Real.pi) : ℝ) : ℂ) + 2 * ((Real.pi : ℝ) : ℂ) * Complex.I := by
    apply Complex.ext <;>
      simp [Complex.mul_re, Complex.mul_im, Complex.add_re, Complex.add_im]
  rw [h1, Complex.exp_add, Complex.exp_two_pi_mul_I, mul_one, Complex.ofReal_exp]

lemma c3_exp_minus :
    Complex.exp ((⟨0, 2⟩ : ℂ) * ((⟨1, -1⟩ : ℂ) * ((Real.pi : ℝ) : ℂ))) =
      ((Real.exp (2 * Real.pi) : ℝ) : ℂ) := by
  have h1 : (⟨0, 2⟩ : ℂ) * ((⟨1, -1⟩ : ℂ) * ((Real.pi : ℝ) : ℂ)) =
      ((2 * Real.pi : ℝ) : ℂ) + 2 * ((Real.pi : ℝ) : ℂ) * Complex.I := by
    apply Complex.ext <;>
      simp [Complex.mul_re, Complex.mul_im, Complex.add_re, Complex.add_im]
  rw [h1, Complex.exp_add, Complex.exp_two_pi_mul_I, mul_one, Complex.ofReal_exp]

/-- Claim C3: `mirror_reflectivity` forms its refractive index as
`n = 1 − δ − iβ` while `multilayer_reflectivity` forms each layer index as
`n = 1 − δ + iβ` (the two conventions are complex conjugates, with opposite
imaginary parts), and the sign convention is observable in the Parratt
routine's output: at a concrete single-layer configuration the routine and
its mirror-sign variant produce different reflectivities. -/
theorem mirror_parratt_sign_conventions :
    (∀ delta beta : ℝ,
      mirror_index delta beta = 1 - (delta : ℂ) - Complex.I * (beta : ℂ) ∧
      parratt_index delta beta = 1 - (delta : ℂ) + Complex.I * (beta : ℂ) ∧
      mirror_index delta beta = (starRingEnd ℂ) (parratt_index delta beta)) ∧
    multilayer_reflectivity xdb_c3 ["A"] [1] "B" [Real.pi / 2] (PLANCK_HC_ANGSTROM / 2)
        1 [1] 1 0 0 Polarization.S ≠
      multilayer_reflectivity_mirror_sign xdb_c3 ["A"] [1] "B" [Real.pi / 2]
        (PLANCK_HC_ANGSTROM / 2) 1 [1] 1 0 0 Polarization.S := by
  constructor
  · intro delta beta
    refine ⟨?_, ?_, ?_⟩ <;> apply Complex.ext <;>
      simp [mirror_index, parratt_index]
  · intro heq
    rw [multilayer_c3_plus, multilayer_c3_minus, c3_exp_plus, c3_exp_minus] at heq
    simp only [Option.some.injEq, List.cons.injEq, and_true] at heq
    have hpi := Real.pi_pos
    have hnormSq_plus : Complex.normSq (((Real.pi : ℝ) : ℂ) - (⟨1, 1⟩ : ℂ) * ((Real.pi : ℝ) : ℂ)) <
        Complex.normSq (((Real.pi : ℝ) : ℂ) + (⟨1, 1⟩ : ℂ) * ((Real.pi : ℝ) : ℂ)) := by
      simp only [Complex.normSq_apply, Complex.sub_re, Complex.sub_im, Complex.add_re,
        Complex.add_im, Complex.mul_re, Complex.mul_im, Complex.ofReal_re,
        Complex.ofReal_im]
      nlinarith
    have hnormSq_minus : Complex.normSq (((Real.pi : ℝ) : ℂ) - (⟨1, -1⟩ : ℂ) * ((Real.pi : ℝ) : ℂ)) <
        Complex.normSq (((Real.pi : ℝ) : ℂ) + (⟨1, -1⟩ : ℂ) * ((Real.pi : ℝ) : ℂ)) := by
      simp only [Complex.normSq_apply, Complex.sub_re, Complex.sub_im, Complex.add_re,
        Complex.add_im, Complex.mul_re, Complex.mul_im, Complex.ofReal_re,
        Complex.ofReal_im]
      nlinarith
    have hp : Real.exp (-(2 * Real.pi)) < 1 := Real.exp_lt_one_iff.mpr (by linarith)
    have hp0 : 0 < Real.exp (-(2 * Real.pi)) := Real.exp_pos _
    have hq : 1 < Real.exp (2 * Real.pi) := by
      rw [show (1 : ℝ) = Real.exp 0 from Real.exp_zero.symm]
      exact Real.exp_lt_exp.mpr (by linarith)
    have hBplus : ((Real.pi : ℝ) : ℂ) + (⟨1, 1⟩ : ℂ) * ((Real.pi : ℝ) : ℂ) +
        (((Real.pi : ℝ) : ℂ) - (⟨1, 1⟩ : ℂ) * ((Real.pi : ℝ) : ℂ)) *
          ((Real.exp (-(2 * Real.pi)) : ℝ) : ℂ) ≠ 0 := by
      intro h
      rw [Complex.ext_iff] at h
      simp only [Complex.add_re, Complex.sub_re, Complex.mul_re, Complex.mul_im,
        Complex.ofReal_re, Complex.ofReal_im, Complex.zero_re] at h
      nlinarith [h.1]
    have hBminus : ((Real.pi : ℝ) : ℂ) + (⟨1, -1⟩ : ℂ) * ((Real.pi : ℝ) : ℂ) +
        (((Real.pi : ℝ) : ℂ) - (⟨1, -1⟩ : ℂ) * ((Real.pi : ℝ) : ℂ)) *
          ((Real.exp (2 * Real.pi) : ℝ) : ℂ) ≠ 0 := by
      intro h
      rw [Complex.ext_iff] at h
      simp only [Complex.add_re, Complex.sub_re, Complex.mul_re, Complex.mul_im,
        Complex.ofReal_re, Complex.ofReal_im, Complex.zero_re] at h
      nlinarith [h.1]
    have hX : Complex.normSq
        ((((Real.pi : ℝ) : ℂ) - (⟨1, 1⟩ : ℂ) * ((Real.pi : ℝ) : ℂ) +
            (((Real.pi : ℝ) : ℂ) + (⟨1, 1⟩ : ℂ) * ((Real.pi : ℝ) : ℂ)) *
              ((Real.exp (-(2 * Real.pi)) : ℝ) : ℂ)) /
          (((Real.pi : ℝ) : ℂ) + (⟨1, 1⟩ : ℂ) * ((Real.pi : ℝ) : ℂ) +
            (((Real.pi : ℝ) : ℂ) - (⟨1, 1⟩ : ℂ) * ((Real.pi : ℝ) : ℂ)) *
              ((Real.exp (-(2 * Real.pi)) : ℝ) : ℂ))) < 1 :=
      normSq_blend_lt_one _ _ _ hnormSq_plus (by nlinarith) hBplus
    have hX' : 1 < Complex.normSq
        ((((Real.pi : ℝ) : ℂ) - (⟨1, -1⟩ : ℂ) * ((Real.pi : ℝ) : ℂ) +
            (((Real.pi : ℝ) : ℂ) + (⟨1, -1⟩ : ℂ) * ((Real.pi : ℝ) : ℂ)) *
              ((Real.exp (2 * Real.pi) : ℝ) : ℂ)) /
          (((Real.pi : ℝ) : ℂ) + (⟨1, -1⟩ : ℂ) * ((Real.pi : ℝ) : ℂ) +
            (((Real.pi : ℝ) : ℂ) - (⟨1, -1⟩ : ℂ) * ((Real.pi : ℝ) : ℂ)) *
              ((Real.exp (2 * Real.pi) : ℝ) : ℂ))) :=
      one_lt_normSq_blend _ _ _ hnormSq_minus (by nlinarith) hBminus
    rw [heq] at hX
    linarith

end Xraydb
